import Mathlib

/-!
FAT16 reader (`file_reader.c`): shallow embedding and verified properties.

The C sources `file_reader.h` / `file_reader.c` are embedded as pure Lean functions.

* A byte is a `Fin 256`; the image file behind a `disk_t` is the list of its bytes.
* Machine integers are natural numbers; every place where the C code narrows a value
  (`uint8_t`, `uint16_t`, `uint32_t`, `size_t` arithmetic) carries an explicit `%`.
* Calls that can trap (division by zero, dereference of a NULL or never-assigned pointer,
  a store past a `calloc`ed buffer) or loop forever return an `Outcome`: `fault` for a
  trap, `timeout` when the fuel given to a `while (1)` loop ran out.
* `malloc`/`calloc` are assumed to succeed and `free` is assumed to return.
* Array reads use `List.getD _ _ 0`: inside a `calloc`ed buffer this is the zero fill; the
  theorems that assert a positive result carry the hypotheses that keep every read in bounds.
-/

namespace FAT16

/-! ## Machine integers and bytes -/

abbrev uint8_t := Fin 256

/-- Value of a C expression stored into a `uint8_t`. -/
def u8 (x : Nat) : Nat := x % 2 ^ 8

/-- Value of a C expression stored into a `uint16_t`. -/
def u16 (x : Nat) : Nat := x % 2 ^ 16

/-- Value of a C expression evaluated or stored as `uint32_t` / `unsigned int`. -/
def u32 (x : Nat) : Nat := x % 2 ^ 32

/-- Value of a C expression evaluated as `size_t` (64 bit). -/
def usz (x : Nat) : Nat := x % 2 ^ 64

/-- Value of a `uint32_t` converted to `int32_t` / `int`; also the value an `int`
expression takes in two's complement when its exact value is `x` modulo `2 ^ 32`. -/
def to_int32 (x : Nat) : Int :=
  if x % 2 ^ 32 < 2 ^ 31 then ((x % 2 ^ 32 : Nat) : Int) else ((x % 2 ^ 32 : Nat) : Int) - 2 ^ 32

/-- Little-endian 16-bit field at byte offset `off`. -/
def le16 (b : List uint8_t) (off : Nat) : Nat :=
  (b.getD off 0).val + 256 * (b.getD (off + 1) 0).val

/-- Little-endian 32-bit field at byte offset `off`. -/
def le32 (b : List uint8_t) (off : Nat) : Nat :=
  (b.getD off 0).val + 256 * (b.getD (off + 1) 0).val
    + 65536 * (b.getD (off + 2) 0).val + 16777216 * (b.getD (off + 3) 0).val

/-- The `errno` values the reader stores through `SET_ERRNO`. -/
inductive Errno where
  | EFAULT | ENOENT | ENOMEM | EINVAL | EISDIR | ENXIO | ERANGE
  deriving DecidableEq, Repr

open Errno

/-- Result of a call.  `ok a`: the call returns `a` (a non-NULL handle for the functions
that return pointers).  `null e`: the call returns NULL, having stored `e` in `errno` when
`e` is `some _` and having left `errno` alone when it is `none`.  `fault`: the call traps
(integer division by zero, NULL dereference).  `timeout`: the fuel of the model ran out
while the call was still looping. -/
inductive Outcome (α : Type) where
  | ok (a : α)
  | null (e : Option Errno)
  | fault
  | timeout
  deriving DecidableEq, Repr

def EOC_FAT_16 : Nat := 0xFFF8

def BAD_CLUSTER_FAT_16 : Nat := 0xFFF7

/-! ## Block device (`disk_read`) -/

/-- The image file behind `struct disk_t`. -/
structure disk_t where
  disk : List uint8_t
  deriving DecidableEq, Repr

/-- File position from which `disk_read` reads (lines 34-35).  The parameter
`first_sector` is an `int32_t` and `first_sector * 512` an `int` product, taken in two's
complement: its value is `first_sector * 512` for `first_sector < 2 ^ 22`.  When the
product is negative `fseek` fails, its result is not tested, and the position stays at 0,
where `fopen` and line 36 of the previous `disk_read` left it. -/
def disk_position (first_sector : Nat) : Nat :=
  if to_int32 (first_sector * 512) < 0 then 0 else (to_int32 (first_sector * 512)).toNat

/-- Bytes that `fseek(first_sector * 512); fread(buffer, 512, sectors_to_read)` transfers:
whatever the image holds from the position reached on, at most `sectors_to_read` sectors
of 512 bytes. -/
def disk_bytes (pdisk : disk_t) (first_sector sectors_to_read : Nat) : List uint8_t :=
  (pdisk.disk.drop (disk_position first_sector)).take (sectors_to_read * 512)

/-- Embedding of `disk_read`: `some` of the sectors read when `fread` delivered all
`sectors_to_read` sectors (the C function then returns `sectors_to_read`), `none` when it
returns `-1` after a short read. -/
def disk_read (pdisk : disk_t) (first_sector sectors_to_read : Nat) : Option (List uint8_t) :=
  if (disk_bytes pdisk first_sector sectors_to_read).length = sectors_to_read * 512 then
    some (disk_bytes pdisk first_sector sectors_to_read)
  else none

/-! ## Volume (`fat_open`) -/

/-- The fields of the packed `struct fat_super_t` that the reader consults, with the boot
sector signature; the remaining fields (jump code, OEM name, label, ...) are never read. -/
structure fat_super_t where
  bytes_per_sector : Nat
  sectors_per_clusters : Nat
  size_of_reserved_area : Nat
  number_of_fats : Nat
  maximum_number_of_files : Nat
  number_of_sectors : Nat
  media_type : Nat
  size_of_fat : Nat
  number_of_sectors_before_partition : Nat
  number_of_sectors_in_filesystem : Nat
  signature : Nat
  deriving DecidableEq, Repr

/-- Decoding of the packed 512-byte boot sector that `disk_read` copies over
`volume->super`; offsets follow the field order of `struct fat_super_t`. -/
def parse_super (sec : List uint8_t) : fat_super_t where
  bytes_per_sector := le16 sec 11
  sectors_per_clusters := (sec.getD 13 0).val
  size_of_reserved_area := le16 sec 14
  number_of_fats := (sec.getD 16 0).val
  maximum_number_of_files := le16 sec 17
  number_of_sectors := le16 sec 19
  media_type := (sec.getD 21 0).val
  size_of_fat := le16 sec 22
  number_of_sectors_before_partition := le32 sec 28
  number_of_sectors_in_filesystem := le32 sec 32
  signature := le16 sec 510

/-- The fields of `struct volume_t` that `fat_open` assigns. -/
structure volume_t where
  disk : disk_t
  super : fat_super_t
  root_dir_capacity : Nat
  total_sectors : Nat
  fat_size : Nat
  root_dir_sectors : Nat
  first_data_sector : Nat
  first_fat_sector : Nat
  data_sectors : Nat
  total_clusters : Nat
  deriving DecidableEq, Repr

/-- Sum `size_of_reserved_area + number_of_fats * size_of_fat` as the `int` expression of
lines 89 and 94-95 (no overflow: at most `65535 + 255 * 65535`). -/
def fat_area_end (super : fat_super_t) : Nat :=
  super.size_of_reserved_area + super.number_of_fats * super.size_of_fat

/-- Right-hand side of line 86, an `int` expression. -/
def root_dir_sectors_expr (super : fat_super_t) : Nat :=
  (super.maximum_number_of_files * 32 + (super.bytes_per_sector - 1)) / super.bytes_per_sector

/-- The assignments of lines 83-98 of `fat_open`.  The stores into the `uint16_t` members
`total_sectors`, `root_dir_sectors`, `first_data_sector`, `root_dir_capacity`,
`first_fat_sector` and the `uint32_t` members `fat_size`, `data_sectors`, `total_clusters`
narrow the `int`/`unsigned` right-hand sides; later lines read the narrowed members. -/
def volume_of_super (pdisk : disk_t) (super : fat_super_t) : volume_t :=
  let total_sectors :=
    u16 (if super.number_of_sectors = 0 then super.number_of_sectors_in_filesystem
         else super.number_of_sectors)
  let root_dir_sectors := u16 (root_dir_sectors_expr super)
  { disk := pdisk
    super := super
    total_sectors := total_sectors
    fat_size := u32 super.size_of_fat
    root_dir_sectors := root_dir_sectors
    first_data_sector := u16 (fat_area_end super + root_dir_sectors)
    root_dir_capacity := u16 (root_dir_sectors * super.bytes_per_sector)
    first_fat_sector := u16 super.size_of_reserved_area
    data_sectors := u32 (total_sectors + 2 ^ 32 - (fat_area_end super + root_dir_sectors))
    total_clusters := u32 (total_sectors / super.sectors_per_clusters) }

/-- Embedding of `fat_open`: a failed `disk_read` of the boot sector or a signature other
than `0xAA55` gives NULL with `EINVAL`; the divisions of lines 86 and 97 trap on a zero
divisor. -/
def fat_open (pdisk : disk_t) (first_sector : Nat) : Outcome volume_t :=
  match disk_read pdisk first_sector 1 with
  | none => .null (some .EINVAL)
  | some sec =>
    if (parse_super sec).signature ≠ 0xAA55 then .null (some .EINVAL)
    else if (parse_super sec).bytes_per_sector = 0 then .fault
    else if (parse_super sec).sectors_per_clusters = 0 then .fault
    else .ok (volume_of_super pdisk (parse_super sec))

/-! ## FAT chain resolver (`get_chain_fat16`) -/

/-- Embedding of `struct clusters_chain_t`.  `clusters` lists the slots of the `malloc`ed
array that have been written, from slot 0 on; `size` is the member `size`. -/
structure clusters_chain_t where
  clusters : List Nat
  size : Nat
  deriving DecidableEq, Repr

/-- Contents of the `calloc`ed FAT buffer after the unchecked `disk_read` of line 125: the
bytes the image holds in the `size_of_fat` sectors from `first_fat_sector` on.  Bytes of
the buffer that the read did not reach stay zero, which is what `List.getD _ _ 0` returns. -/
def fat_buffer (volume : volume_t) : List uint8_t :=
  disk_bytes volume.disk volume.first_fat_sector volume.super.size_of_fat

/-- The read `((uint16_t *) buffer)[index]`. -/
def fat_entry (buffer : List uint8_t) (index : Nat) : Nat :=
  le16 buffer (2 * index)

/-- First `while (1)` loop of `get_chain_fat16` (lines 127-140), one iteration per unit
of fuel; the result is `how_many_clusters` at the `break`.  On the bad-cluster value the C
code calls `free(temp->clusters)` on a member that has not been assigned yet (line 134;
the assignment is at line 143), which is undefined: the call may crash there.  The
embedding follows the run in which that `free` returns, and gives the NULL of line 136. -/
def count_clusters (buffer : List uint8_t) : Nat → Nat → Nat → Outcome Nat
  | 0, _, _ => .timeout
  | fuel + 1, next_index, how_many_clusters =>
    if next_index ≥ EOC_FAT_16 then .ok how_many_clusters
    else if next_index = BAD_CLUSTER_FAT_16 then .null none
    else count_clusters buffer fuel (fat_entry buffer (u16 next_index)) (how_many_clusters + 1)

/-- Second `while (1)` loop of `get_chain_fat16` (lines 149-161), one iteration per unit
of fuel.  The store to `clusters[size + 1]` extends the written slots `0 .. size`. -/
def fill_clusters (buffer : List uint8_t) : Nat → clusters_chain_t → Outcome clusters_chain_t
  | 0, _ => .timeout
  | fuel + 1, temp =>
    if temp.clusters.getD temp.size 0 ≥ EOC_FAT_16 then .ok temp
    else if temp.clusters.getD temp.size 0 = BAD_CLUSTER_FAT_16 then .null none
    else
      fill_clusters buffer fuel
        { clusters := temp.clusters.take (temp.size + 1)
            ++ [fat_entry buffer (u16 (temp.clusters.getD (u16 temp.size) 0))]
          size := temp.size + 1 }

/-- Embedding of `get_chain_fat16`.  `fuel` bounds the number of iterations each of the
two `while (1)` loops may take.  A NULL result carries no `errno`. -/
def get_chain_fat16 (fuel : Nat) (volume : volume_t) (size : Nat) (first_cluster : Nat) :
    Outcome clusters_chain_t :=
  if size = 0 then .null none
  else
    match count_clusters (fat_buffer volume) fuel first_cluster 0 with
    | .ok _ => fill_clusters (fat_buffer volume) fuel { clusters := [first_cluster], size := 0 }
    | .null e => .null e
    | .fault => .fault
    | .timeout => .timeout

/-! ## File open (`file_open`) -/

/-- Embedding of `struct file_t`: the directory-entry fields the reader consults and the
cursor.  The member `disk` always equals `volume.disk` and is left out. -/
structure file_t where
  filename : List uint8_t
  extension : List uint8_t
  file_attributes : Nat
  high_order_address_of_first_cluster : Nat
  low_order_address_of_first_cluster : Nat
  size : Nat
  chain : Option clusters_chain_t
  volume : volume_t
  file_offset : Nat
  cluster_offset : Nat
  end_of_file : Bool
  deriving DecidableEq, Repr

/-- The `n` bytes that `memcpy` reads from `buffer + off`. -/
def bytes_at (buffer : List uint8_t) (off n : Nat) : List uint8_t :=
  (List.range n).map (fun k => buffer.getD (off + k) 0)

/-- The store `memcpy(dst + off, src, src.length)` into a destination of which the bytes
`dst` have been written so far. -/
def memcpy (dst : List uint8_t) (off : Nat) (src : List uint8_t) : List uint8_t :=
  dst.take off ++ src ++ dst.drop (off + src.length)

/-- The libc `isalpha` in the C locale. -/
def isalpha (c : uint8_t) : Bool :=
  (65 ≤ c.val && c.val ≤ 90) || (97 ≤ c.val && c.val ≤ 122)

/-- The libc `strlen`: number of bytes before the first NUL. -/
def strlen (s : List uint8_t) : Nat :=
  (s.takeWhile (fun c => c ≠ 0)).length

/-- Loop of lines 205-218 over `j`, with `n` iterations left: every non-letter of `name` is
overwritten, the first by a dot and the following ones by the extension bytes, and the
loop ends by storing a NUL after the third extension byte. -/
def decode_name_loop (extension : List uint8_t) :
    Nat → Nat → Int → List uint8_t → List uint8_t
  | 0, _, _, name => name
  | n + 1, j, counter, name =>
    let name1 :=
      if isalpha (name.getD j 0) then name
      else if counter = -1 then name.set j 46
      else name.set j (extension.getD counter.toNat 0)
    let counter1 := if isalpha (name.getD j 0) then counter else counter + 1
    if counter1 = 3 then name1.set (j + 1) 0
    else decode_name_loop extension n (j + 1) counter1 name1

/-- The 14-byte buffer `name` that `file_open` compares with the requested name, computed
from the 32-byte directory entry `temp` (lines 198-221). -/
def file_open_name (temp : List uint8_t) : List uint8_t :=
  let name := decode_name_loop (bytes_at temp 8 3) 13 0 (-1)
    (bytes_at temp 0 8 ++ List.replicate 6 0)
  if temp.getD 8 0 = 32 then name.set 8 0 else name

/-- The comparison loop of lines 224-230: `is_sim` stays true when the first
`strlen(file_name)` bytes of `name` equal those of `file_name`. -/
def is_sim (name file_name : List uint8_t) : Bool :=
  (List.range (strlen file_name)).all (fun j => name.getD j 0 = file_name.getD j 0)

/-- The handle `file_open` returns for the directory entry `temp`, given the result of
`get_chain_fat16` (lines 240-248). -/
def file_of_entry (pvolume : volume_t) (temp : List uint8_t) (chain : Option clusters_chain_t) :
    file_t where
  filename := bytes_at temp 0 8
  extension := bytes_at temp 8 3
  file_attributes := (temp.getD 11 0).val
  high_order_address_of_first_cluster := le16 temp 20
  low_order_address_of_first_cluster := le16 temp 26
  size := le32 temp 28
  chain := chain
  volume := pvolume
  file_offset := 0
  cluster_offset := 0
  end_of_file := false

/-- The `for` loop of `file_open` (lines 196-250) from slot `i` on, with `n` slots left.
The result of `get_chain_fat16` is stored without being tested. -/
def file_open_scan (fuel : Nat) (pvolume : volume_t) (buffer file_name : List uint8_t) :
    Nat → Nat → Outcome file_t
  | 0, _ => .null (some .ENOENT)
  | n + 1, i =>
    let temp := bytes_at buffer (i * 32) 32
    if temp.getD 0 0 = 0x00 ∨ temp.getD 0 0 = 0xE5 ∨ temp.getD 0 0 = 0x2E then
      file_open_scan fuel pvolume buffer file_name n (i + 1)
    else if is_sim (file_open_name temp) file_name then
      if (temp.getD 11 0).val &&& 0x10 = 0x10 ∨ (temp.getD 11 0).val &&& 0x08 = 0x08 then
        .null (some .EISDIR)
      else
        match get_chain_fat16 fuel pvolume (le32 temp 28) (le16 temp 26) with
        | .ok chain => .ok (file_of_entry pvolume temp (some chain))
        | .null _ => .ok (file_of_entry pvolume temp none)
        | .fault => .fault
        | .timeout => .timeout
    else file_open_scan fuel pvolume buffer file_name n (i + 1)

/-- Embedding of `file_open`; `fuel` is handed to `get_chain_fat16`.  The root directory
buffer is `calloc`ed with `root_dir_capacity * bytes_per_sector` bytes (line 176) and
filled by `disk_read` with `root_dir_sectors` sectors of 512 bytes: when `fread` stores
more bytes than the buffer has, the call writes past it, which is a trap. -/
def file_open (fuel : Nat) (pvolume : volume_t) (file_name : List uint8_t) : Outcome file_t :=
  if pvolume.root_dir_capacity * pvolume.super.bytes_per_sector
      < (disk_bytes pvolume.disk (fat_area_end pvolume.super) pvolume.root_dir_sectors).length then
    .fault
  else
    match disk_read pvolume.disk (fat_area_end pvolume.super) pvolume.root_dir_sectors with
    | none => .null (some .EINVAL)
    | some buffer =>
      file_open_scan fuel pvolume buffer file_name pvolume.super.maximum_number_of_files 0

/-! ## File read (`file_read`) -/

/-- What a call of `file_read` leaves behind: the returned `size_t`, the bytes stored
through `ptr` (from `ptr[0]` on) and the handle after the call. -/
structure read_result where
  ret : Nat
  out : List uint8_t
  stream : file_t
  deriving DecidableEq, Repr

/-- The locals of `file_read` during the `for` loop, with the cluster scratch `buffer`,
the bytes stored through `ptr` so far and the flag `stream->end_of_file`. -/
structure read_locals where
  file_offset : Nat
  cluster_offset : Nat
  buffer_offset : Nat
  how_many_elements : Nat
  buffer : List uint8_t
  out : List uint8_t
  end_of_file : Bool
  deriving DecidableEq, Repr

/-- How one pass through the body of the `for` loop ends: at the end of the body (`next`),
at a `break` (`brk`), or at a `return n` (`ret n`). -/
inductive read_step where
  | next (s : read_locals)
  | brk (s : read_locals)
  | ret (n : Nat) (s : read_locals)
  deriving DecidableEq, Repr

/-- The `uint32_t first_sector` of lines 284-286, 318-320 and 340-342 for chain slot `k`;
a slot of the `clusters` array that was never written reads as 0. -/
def cluster_sector (volume : volume_t) (chain : clusters_chain_t) (k : Nat) : Nat :=
  u32 (u32 (chain.clusters.getD k 0 + 2 ^ 32 - 2) * volume.super.sectors_per_clusters
    + volume.first_data_sector)

/-- Conversion to `size_t` of an `int` that was assigned the `size_t` value `r`
(`int how_many = ...` of line 366 used as a `memcpy` length). -/
def int_as_size_t (r : Nat) : Nat :=
  if r % 2 ^ 32 < 2 ^ 31 then r % 2 ^ 32 else 2 ^ 64 - 2 ^ 32 + r % 2 ^ 32

/-- One pass through the body of the `for` loop of `file_read` (lines 297-376) for
elements of `size` bytes. -/
def file_read_step (stream : file_t) (chain : clusters_chain_t) (size nmemb : Nat)
    (s : read_locals) : read_step :=
  let volume := stream.volume
  let spc := volume.super.sectors_per_clusters
  let bps := volume.super.bytes_per_sector
  if u32 (stream.file_offset * spc * bps + stream.cluster_offset) ≥ stream.size then .ret 0 s
  else if stream.size ≥ usz (s.file_offset * spc * bps + s.cluster_offset + size) then
    if s.cluster_offset < spc * bps then
      if usz (s.cluster_offset + size) > spc * bps then
        let how_much_to_copy := u8 (spc * bps - s.cluster_offset)
        let out1 := memcpy s.out s.buffer_offset (bytes_at s.buffer s.cluster_offset how_much_to_copy)
        match disk_read volume.disk (cluster_sector volume chain (s.file_offset + 1)) spc with
        | none =>
          .ret nmemb { s with
            out := out1, cluster_offset := 0, file_offset := s.file_offset + 1,
            buffer_offset := s.buffer_offset + how_much_to_copy }
        | some buffer1 =>
          .next
            { file_offset := s.file_offset + 1
              cluster_offset := size - how_much_to_copy
              buffer_offset := s.buffer_offset + how_much_to_copy + (size - how_much_to_copy)
              how_many_elements := s.how_many_elements + 1
              buffer := buffer1
              out := memcpy out1 (s.buffer_offset + how_much_to_copy)
                (bytes_at buffer1 0 (size - how_much_to_copy))
              end_of_file := s.end_of_file }
      else
        .next { s with
          out := memcpy s.out s.buffer_offset (bytes_at s.buffer s.cluster_offset size)
          how_many_elements := s.how_many_elements + 1
          cluster_offset := s.cluster_offset + size
          buffer_offset := s.buffer_offset + size }
    else
      match disk_read volume.disk (cluster_sector volume chain (s.file_offset + 1)) spc with
      | none => .ret nmemb { s with file_offset := s.file_offset + 1, cluster_offset := 0 }
      | some buffer1 =>
        .next
          { file_offset := s.file_offset + 1
            cluster_offset := size
            buffer_offset := s.buffer_offset + size
            how_many_elements := s.how_many_elements + 1
            buffer := buffer1
            out := memcpy s.out s.buffer_offset (bytes_at buffer1 0 size)
            end_of_file := s.end_of_file }
  else if stream.size = usz (s.file_offset * spc * bps + s.cluster_offset + size) then
    .brk { s with
      out := memcpy s.out s.buffer_offset (bytes_at s.buffer s.cluster_offset size)
      how_many_elements := s.how_many_elements + 1
      cluster_offset := s.cluster_offset + size
      buffer_offset := s.buffer_offset + size
      end_of_file := true }
  else if usz (stream.size + 2 ^ 64 - usz (s.file_offset * spc * bps + s.cluster_offset)) < size then
    let how_many :=
      int_as_size_t (usz (stream.size + 2 ^ 64 - usz (s.file_offset * spc * bps + s.cluster_offset)))
    .next { s with
      out := memcpy s.out s.buffer_offset (bytes_at s.buffer s.cluster_offset how_many)
      cluster_offset := usz (s.cluster_offset + how_many)
      end_of_file := true }
  else .brk { s with end_of_file := true }

/-- How the `for` loop of `file_read` ends: past its last iteration or at a `break`
(`done`), or at a `return n` inside the body (`ret n`). -/
inductive read_exit where
  | done (s : read_locals)
  | ret (n : Nat) (s : read_locals)
  deriving DecidableEq, Repr

/-- The `for (i = 0; i < nmemb; ++i)` loop of `file_read` with `n` iterations left. -/
def file_read_loop (stream : file_t) (chain : clusters_chain_t) (size nmemb : Nat) :
    Nat → read_locals → read_exit
  | 0, s => .done s
  | n + 1, s =>
    match file_read_step stream chain size nmemb s with
    | .next s1 => file_read_loop stream chain size nmemb n s1
    | .brk s1 => .done s1
    | .ret r s1 => .ret r s1

/-- Embedding of `file_read(ptr, size, nmemb, stream)`.  The argument check returns
`(size_t) -1` (after `SET_ERRNO(EFAULT)`); a handle without chain makes line 285
dereference NULL.  A `return` inside the loop leaves the cursor of the handle unchanged;
otherwise lines 380-381 store the locals into the `uint32_t` cursor members. -/
def file_read (size nmemb : Nat) (stream : file_t) : Outcome read_result :=
  if size = 0 ∨ nmemb = 0 then .ok { ret := 2 ^ 64 - 1, out := [], stream := stream }
  else if stream.end_of_file then .ok { ret := 0, out := [], stream := stream }
  else
    match stream.chain with
    | none => .fault
    | some chain =>
      match disk_read stream.volume.disk (cluster_sector stream.volume chain stream.file_offset)
          stream.volume.super.sectors_per_clusters with
      | none => .ok { ret := 0, out := [], stream := stream }
      | some buffer =>
        match file_read_loop stream chain size nmemb nmemb
            { file_offset := stream.file_offset
              cluster_offset := stream.cluster_offset
              buffer_offset := 0
              how_many_elements := 0
              buffer := buffer
              out := []
              end_of_file := stream.end_of_file } with
        | .done s =>
          .ok { ret := s.how_many_elements
                out := s.out
                stream := { stream with
                  file_offset := u32 s.file_offset
                  cluster_offset := u32 s.cluster_offset
                  end_of_file := s.end_of_file } }
        | .ret r s =>
          .ok { ret := r, out := s.out, stream := { stream with end_of_file := s.end_of_file } }

/-! ## File seek (`file_seek`) -/

/-- Value of an `int` converted to `uint32_t` / `unsigned int`. -/
def of_int32 (i : Int) : Nat := (i % 2 ^ 32).toNat

def SEEK_SET : Nat := 0

def SEEK_CUR : Nat := 1

def SEEK_END : Nat := 2

/-- What a call of `file_seek` leaves behind: the returned `int32_t`, the value stored in
`errno` if any, and the handle after the call. -/
structure seek_result where
  ret : Int
  errno : Option Errno
  stream : file_t
  deriving DecidableEq, Repr

/-- Embedding of `file_seek(stream, offset, whence)`, `offset` being an `int32_t`.  The
`int` quotients are truncating divisions stored into the `uint32_t` member `file_offset`;
the remainders are taken in `unsigned int` arithmetic.  A zero divisor traps. -/
def file_seek (stream : file_t) (offset : Int) (whence : Nat) : Outcome seek_result :=
  let cluster_bytes : Nat :=
    stream.volume.super.sectors_per_clusters * stream.volume.super.bytes_per_sector
  if whence = SEEK_SET then
    if offset > to_int32 stream.size then .ok { ret := -1, errno := some ENXIO, stream := stream }
    else if cluster_bytes = 0 then .fault
    else
      let file_offset := of_int32 (Int.tdiv offset cluster_bytes)
      if file_offset ≠ 0 then
        if u32 (file_offset * cluster_bytes) = 0 then .fault
        else
          .ok { ret := 0, errno := none
                stream := { stream with
                  file_offset := file_offset
                  cluster_offset := of_int32 offset % u32 (file_offset * cluster_bytes) } }
      else
        .ok { ret := 0, errno := none
              stream := { stream with file_offset := file_offset, cluster_offset := of_int32 offset } }
  else if whence = SEEK_END then
    if of_int32 (Int.natAbs offset) > stream.size then
      .ok { ret := -1, errno := some ENXIO, stream := stream }
    else if cluster_bytes = 0 then .fault
    else
      let bytes_from_beginning : Int := to_int32 (u32 (stream.size + of_int32 offset))
      let file_offset := of_int32 (Int.tdiv bytes_from_beginning cluster_bytes)
      if u32 (file_offset * cluster_bytes) = 0 then .fault
      else
        .ok { ret := 0, errno := none
              stream := { stream with
                file_offset := file_offset
                cluster_offset := of_int32 bytes_from_beginning % u32 (file_offset * cluster_bytes) } }
  else if whence = SEEK_CUR then
    let current_bytes := u32 (cluster_bytes * stream.file_offset + stream.cluster_offset)
    if u32 (current_bytes + of_int32 offset) ≤ 0 ∨ u32 (current_bytes + of_int32 offset) > stream.size then
      .ok { ret := -1, errno := some ENXIO, stream := stream }
    else if cluster_bytes = 0 then .fault
    else
      let file_offset :=
        of_int32 (Int.tdiv (to_int32 (u32 (of_int32 offset + current_bytes))) cluster_bytes)
      if u32 (file_offset * cluster_bytes) = 0 then .fault
      else
        .ok { ret := 0, errno := none
              stream := { stream with
                file_offset := file_offset
                cluster_offset :=
                  u32 (of_int32 offset + current_bytes) % u32 (file_offset * cluster_bytes) } }
  else .ok { ret := 0, errno := none, stream := stream }


/-! ## Following the FAT -/

/-- The cluster the FAT names after cluster `c`: the entry read at lines 138 and 159. -/
def fat_next (buffer : List uint8_t) (c : Nat) : Nat :=
  fat_entry buffer (u16 c)

/-- The written slots `0 .. n` of the `clusters` array after `n` rounds of the second loop
of `get_chain_fat16` started at cluster `c0`: slot `i` holds the cluster reached after
following `i` FAT entries. -/
def chain_of (buffer : List uint8_t) (c0 n : Nat) : clusters_chain_t where
  clusters := (List.range (n + 1)).map (fun i => (fat_next buffer)^[i] c0)
  size := n

/-- Memory safety of `get_chain_fat16` on a walk of `n` entries from `c0`: the sectors
`disk_read` stores fit into the `calloc(size_of_fat, bytes_per_sector)` buffer, and every
FAT entry the walk reads lies inside that buffer. -/
def fat_reads_in_bounds (volume : volume_t) (c0 n : Nat) : Prop :=
  (fat_buffer volume).length ≤ volume.super.size_of_fat * volume.super.bytes_per_sector ∧
  ∀ i, i < n →
    2 * (fat_next (fat_buffer volume))^[i] c0 + 1
      < volume.super.size_of_fat * volume.super.bytes_per_sector

/-! ## File contents along the cluster chain -/

/-- Size of a cluster in bytes, `sectors_per_clusters * bytes_per_sector`. -/
def cluster_bytes (volume : volume_t) : Nat :=
  volume.super.sectors_per_clusters * volume.super.bytes_per_sector

/-- Byte position at which the reader looks for data cluster `cl`: the sector
`first_data_sector + (cl - 2) * sectors_per_clusters` computed from the `uint16_t` member
`volume.first_data_sector`, in sectors of 512 bytes.  This is where the cluster lies in
the image as long as `reserved + fat_count * sectors_per_fat + root_dir_sectors` fits the
16 bits of the member. -/
def cluster_position (volume : volume_t) (cl : Nat) : Nat :=
  512 * (volume.first_data_sector + (cl - 2) * volume.super.sectors_per_clusters)

/-- Cluster `cl` is a data cluster whose sectors all lie inside the image. -/
def cluster_in_image (volume : volume_t) (cl : Nat) : Prop :=
  2 ≤ cl ∧
    cluster_position volume cl + 512 * volume.super.sectors_per_clusters
      ≤ volume.disk.disk.length

/-- Byte `j` of the file stored along `chain`: the byte at offset `j mod cluster_bytes` of
the cluster in slot `j div cluster_bytes` of the chain, clusters being located by
`cluster_position`. -/
def file_byte (volume : volume_t) (chain : clusters_chain_t) (j : Nat) : uint8_t :=
  volume.disk.disk.getD
    (cluster_position volume (chain.clusters.getD (j / cluster_bytes volume) 0)
      + j % cluster_bytes volume) 0

/-- The `count` bytes of the file stored along `chain` from logical offset `start` on. -/
def file_bytes (volume : volume_t) (chain : clusters_chain_t) (start count : Nat) :
    List uint8_t :=
  (List.range count).map (fun i => file_byte volume chain (start + i))

/-- Well-formedness of the file behind the handle `f`: 512-byte sectors, at least one
sector per cluster, an image and a file size below 2 GiB (byte positions are C `int`s,
`file_seek` compares offsets with the size as `int32_t`), a root directory
that fits the buffer `file_open` allocates for it, and, when the file is not empty, a
chain of `ceil(size / cluster_bytes)` clusters, each a data cluster inside the image whose
FAT entry lies inside the FAT. -/
def well_formed (f : file_t) : Prop :=
  f.volume.super.bytes_per_sector = 512 ∧
  0 < f.volume.super.sectors_per_clusters ∧
  f.volume.disk.disk.length < 2 ^ 31 ∧
  f.size < 2 ^ 31 ∧
  f.volume.root_dir_sectors * 512
    ≤ f.volume.root_dir_capacity * f.volume.super.bytes_per_sector ∧
  f.volume.super.maximum_number_of_files * 32
    ≤ f.volume.root_dir_capacity * f.volume.super.bytes_per_sector ∧
  (0 < f.size →
    ∃ chain, f.chain = some chain ∧
      chain.size = (f.size + cluster_bytes f.volume - 1) / cluster_bytes f.volume ∧
      ∀ k, k < chain.size →
        cluster_in_image f.volume (chain.clusters.getD k 0) ∧
          2 * chain.clusters.getD k 0 + 1
            < f.volume.super.size_of_fat * f.volume.super.bytes_per_sector)

/-- The caller loop of the round trip: `file_read(out, 1, ns i, f)` for `i = i0, i0 + 1, ...`
until a call returns 0, collecting the `ret` bytes each call delivered; `none` when a call
traps or `fuel` calls did not reach a call returning 0. -/
def read_until_zero (ns : Nat → Nat) : Nat → Nat → file_t → Option (List uint8_t)
  | 0, _, _ => none
  | fuel + 1, i, f =>
    match file_read 1 (ns i) f with
    | .ok r =>
      if r.ret = 0 then some []
      else (read_until_zero ns fuel (i + 1) r.stream).map (fun rest => r.out.take r.ret ++ rest)
    | _ => none

/-- Standing assumptions of a `file_read` call with one-byte elements on handle `f` with
chain `chain`: 512-byte sectors, an image below 2 GiB, every chain slot that holds file
bytes is a data cluster inside the image, and the cursor at entry is before the end. -/
structure ReadCtx (f : file_t) (chain : clusters_chain_t) : Prop where
  hbps : f.volume.super.bytes_per_sector = 512
  hspc : 0 < f.volume.super.sectors_per_clusters
  hlen : f.volume.disk.disk.length < 2 ^ 31
  hsize : f.size < 2 ^ 32
  hcl : ∀ k, k * cluster_bytes f.volume < f.size →
    cluster_in_image f.volume (chain.clusters.getD k 0)
  hentry : f.file_offset * cluster_bytes f.volume + f.cluster_offset < f.size

/-- Loop invariant of `file_read` with one-byte elements: the locals stand at logical
offset `p`, the scratch buffer holds the cluster of the cursor, and the output holds the
file bytes from the entry offset `p0` up to `p`. -/
structure ReadInv (f : file_t) (chain : clusters_chain_t) (p0 : Nat) (s : read_locals)
    (p : Nat) : Prop where
  pos : s.file_offset * cluster_bytes f.volume + s.cluster_offset = p
  co_le : s.cluster_offset ≤ cluster_bytes f.volume
  p_le : p ≤ f.size
  p0_le : p0 ≤ p
  idx : s.file_offset * cluster_bytes f.volume < f.size
  buf : s.buffer = disk_bytes f.volume.disk (cluster_sector f.volume chain s.file_offset)
    f.volume.super.sectors_per_clusters
  out : s.out = file_bytes f.volume chain p0 (p - p0)
  boff : s.buffer_offset = p - p0
  cnt : s.how_many_elements = p - p0

/-- Layout assumptions shared by all handles on one file: 512-byte sectors, at least one
sector per cluster, an image below 2 GiB, a 32-bit size, and every chain slot that holds
file bytes is a data cluster inside the image. -/
structure Layout (volume : volume_t) (size : Nat) (chain : clusters_chain_t) : Prop where
  hbps : volume.super.bytes_per_sector = 512
  hspc : 0 < volume.super.sectors_per_clusters
  hlen : volume.disk.disk.length < 2 ^ 31
  hsize : size < 2 ^ 32
  hcl : ∀ k, k * cluster_bytes volume < size → cluster_in_image volume (chain.clusters.getD k 0)

/-- The handle stands at logical offset `p`. -/
def at_offset (f : file_t) (p : Nat) : Prop :=
  f.file_offset * cluster_bytes f.volume + f.cluster_offset = p ∧
    f.cluster_offset ≤ cluster_bytes f.volume


/-! ## Directory (`dir_open`, `dir_read`) -/

/-- Embedding of `struct dir_t`: the members the directory functions use.  `volume` is
`none` while the pointer member has never been assigned: `dir_open` stores `disk` and
`dir_offset` only. -/
structure dir_t where
  volume : Option volume_t
  disk : disk_t
  dir_offset : Nat
  deriving DecidableEq, Repr

/-- Embedding of `struct dir_entry_t`: the 20 bytes of `name`, `size` and the five
one-bit flags (the member `super` is never accessed). -/
structure dir_entry_t where
  name : List uint8_t
  size : Nat
  is_archived : Nat
  is_readonly : Nat
  is_system : Nat
  is_hidden : Nat
  is_directory : Nat
  deriving DecidableEq, Repr

/-- Embedding of `dir_open(pvolume, dir_path)` for a non-NULL path: a path whose first
byte is a backslash gives a handle; any other path gives NULL, and no `errno` is stored
on that line. -/
def dir_open (pvolume : volume_t) (dir_path : List uint8_t) : Outcome dir_t :=
  if dir_path.getD 0 0 = 92 then .ok { volume := none, disk := pvolume.disk, dir_offset := 0 }
  else .null none

/-- The C string held in a buffer: the bytes before the first NUL. -/
def c_string (s : List uint8_t) : List uint8_t :=
  s.takeWhile (fun c => c ≠ 0)

/-- The libc `strcpy(dst, src)`: the string in `src` and its NUL overwrite the first bytes
of `dst`. -/
def strcpy (dst src : List uint8_t) : List uint8_t :=
  memcpy dst 0 (c_string src ++ [0])

/-- Loop of lines 498-513 of `dir_read` over `j`, with `n` iterations left: as in
`file_open`, with the count `dot_bit` (a `uint8_t`) of the letters met. -/
def dir_decode_loop (extension : List uint8_t) :
    Nat → Nat → Int → Nat → List uint8_t → List uint8_t × Nat
  | 0, _, _, dot_bit, name => (name, dot_bit)
  | n + 1, j, counter, dot_bit, name =>
    let name1 :=
      if isalpha (name.getD j 0) then name
      else if counter = -1 then name.set j 46
      else name.set j (extension.getD counter.toNat 0)
    let counter1 := if isalpha (name.getD j 0) then counter else counter + 1
    let dot_bit1 := if isalpha (name.getD j 0) then u8 (dot_bit + 1) else dot_bit
    if counter1 = 3 then (name1.set (j + 1) 0, dot_bit1)
    else dir_decode_loop extension n (j + 1) counter1 dot_bit1 name1

/-- The 14-byte buffer `name` that `dir_read` copies out, computed from the 32-byte
directory entry `temp` (lines 489-516). -/
def dir_read_name (temp : List uint8_t) : List uint8_t :=
  let r := dir_decode_loop (bytes_at temp 8 3) 13 0 (-1) 0
    (bytes_at temp 0 8 ++ List.replicate 6 0)
  if temp.getD 8 0 = 32 then r.1.set r.2 0 else r.1

/-- What a call of `dir_read` leaves behind: the returned `int`, the value stored in
`errno` if any, the handle and the caller's record after the call. -/
structure dir_read_result where
  ret : Int
  errno : Option Errno
  pdir : dir_t
  pentry : dir_entry_t
  deriving DecidableEq, Repr

/-- The first byte of the slot marks it unused (`0x00`), deleted (`0xE5`) or a dot entry
(`0x2E`): the test of lines 200 and 491. -/
@[reducible]
def slot_skipped (buffer : List uint8_t) (i : Nat) : Prop :=
  buffer.getD (i * 32) 0 = 0x00 ∨ buffer.getD (i * 32) 0 = 0xE5 ∨ buffer.getD (i * 32) 0 = 0x2E

/-- The `for` loop of `dir_read` (lines 486-523) with the cursor at slot `off` and `n`
slots left before `maximum_number_of_files`; past the last slot the cursor is reset and 1
is returned (lines 525-527).  Only `name` of the caller's record is written. -/
def dir_read_loop (buffer : List uint8_t) (pdir : dir_t) (pentry : dir_entry_t) :
    Nat → Nat → dir_read_result
  | 0, _ => { ret := 1, errno := none, pdir := { pdir with dir_offset := 0 }, pentry := pentry }
  | n + 1, off =>
    if slot_skipped buffer off then dir_read_loop buffer pdir pentry n (off + 1)
    else
      { ret := 0, errno := none
        pdir := { pdir with dir_offset := off + 1 }
        pentry := { pentry with
          name := strcpy pentry.name (dir_read_name (bytes_at buffer (off * 32) 32)) } }

/-- Embedding of `dir_read(pdir, pentry)`.  Line 468 dereferences `pdir->volume`: a handle
whose `volume` was never assigned makes the call trap.  The buffer of line 468 has
`root_dir_capacity * bytes_per_sector` bytes: when `fread` stores more bytes than that, the
call writes past the buffer, which is a trap.  A failed read of the root directory returns
`-1` with `EINVAL`. -/
def dir_read (pdir : dir_t) (pentry : dir_entry_t) : Outcome dir_read_result :=
  match pdir.volume with
  | none => .fault
  | some volume =>
    if volume.root_dir_capacity * volume.super.bytes_per_sector
        < (disk_bytes volume.disk (fat_area_end volume.super) volume.root_dir_sectors).length then
      .fault
    else
      match disk_read volume.disk (fat_area_end volume.super) volume.root_dir_sectors with
      | none => .ok { ret := -1, errno := some EINVAL, pdir := pdir, pentry := pentry }
      | some buffer =>
        .ok (dir_read_loop buffer pdir pentry
          (volume.super.maximum_number_of_files - pdir.dir_offset) pdir.dir_offset)

/-! ## Reference 8.3 decoding -/

/-- Removal of the trailing spaces (`0x20`) of a field. -/
def strip_trailing_spaces (l : List uint8_t) : List uint8_t :=
  (l.reverse.dropWhile (fun c => c = 32)).reverse

/-- Reference 8.3 decoding of a directory entry, in the words of the specification: the
8-byte name without its trailing spaces, followed by a dot and the 3-byte extension
without its trailing spaces, the dot and the extension omitted when the extension is all
spaces. -/
def reference_name (temp : List uint8_t) : List uint8_t :=
  if strip_trailing_spaces (bytes_at temp 8 3) = [] then strip_trailing_spaces (bytes_at temp 0 8)
  else strip_trailing_spaces (bytes_at temp 0 8) ++ [46] ++ strip_trailing_spaces (bytes_at temp 8 3)

/-- The root directory fits the buffer that `file_open` and `dir_read` allocate for it:
the sectors read and all `maximum_number_of_files` slots lie inside the
`root_dir_capacity * bytes_per_sector` bytes of the `calloc`. -/
def root_reads_in_bounds (volume : volume_t) : Prop :=
  volume.root_dir_sectors * 512 ≤ volume.root_dir_capacity * volume.super.bytes_per_sector ∧
    volume.super.maximum_number_of_files * 32
      ≤ volume.root_dir_capacity * volume.super.bytes_per_sector

/-! ## Concrete images used to run the embedding -/

/-- The `n` low-order bytes of `x`, least significant first. -/
def le_bytes (x : Nat) : Nat → List uint8_t
  | 0 => []
  | n + 1 => Fin.ofNat (x % 256) :: le_bytes (x / 256) n

/-- A list of byte values as bytes. -/
def bytes_of (l : List Nat) : List uint8_t := l.map (fun x => Fin.ofNat x)

/-- Zero padding of `l` up to `n` bytes. -/
def pad_to (n : Nat) (l : List uint8_t) : List uint8_t := l ++ List.replicate (n - l.length) 0

/-- A 512-byte boot sector with signature `0xAA55` and the given BPB fields. -/
def mk_boot (bps spc reserved fats max_root nsect sof nsect32 : Nat) : List uint8_t :=
  List.replicate 11 0 ++ le_bytes bps 2 ++ le_bytes spc 1 ++ le_bytes reserved 2
    ++ le_bytes fats 1 ++ le_bytes max_root 2 ++ le_bytes nsect 2 ++ [0xF8] ++ le_bytes sof 2
    ++ List.replicate 8 0 ++ le_bytes nsect32 4 ++ List.replicate 474 0 ++ [0x55, 0xAA]

/-- A 32-byte directory entry: 11 name bytes, attribute byte, first cluster, size. -/
def mk_entry (name : List Nat) (attr cluster size : Nat) : List uint8_t :=
  bytes_of name ++ le_bytes attr 1 ++ List.replicate 14 0 ++ le_bytes cluster 2 ++ le_bytes size 4

/-- A FAT sector holding the given 16-bit entries. -/
def mk_fat (entries : List Nat) : List uint8_t :=
  pad_to 512 ((entries.map (fun e => le_bytes e 2)).flatten)

/-- The bytes `0, 1, ..., 255, 0, 1, ...` from position `start`, `n` of them. -/
def ramp (start n : Nat) : List uint8_t := (List.range n).map (fun i => Fin.ofNat (start + i))

/-- Name bytes of `HELLO   TXT`. -/
def name_HELLO_TXT : List Nat := [72, 69, 76, 76, 79, 32, 32, 32, 84, 88, 84]

/-- Name bytes of `BIG     BIN`. -/
def name_BIG_BIN : List Nat := [66, 73, 71, 32, 32, 32, 32, 32, 66, 73, 78]

/-- A six-sector image: boot sector (512-byte sectors, one sector per cluster, one reserved
sector, one FAT of one sector, 16 root entries), FAT with the chains `2 → 3` and `4`,
root directory with `BIG.BIN` (519 bytes, first cluster 2) and `HELLO.TXT` (13 bytes,
first cluster 4), then the clusters 2, 3 and 4. -/
def sample_disk : disk_t where
  disk :=
    mk_boot 512 1 1 1 16 6 1 0
      ++ mk_fat [0xFFF8, 0xFFFF, 3, 0xFFFF, 0xFFFF]
      ++ pad_to 512 (mk_entry name_BIG_BIN 0x20 2 519 ++ mk_entry name_HELLO_TXT 0x20 4 13)
      ++ ramp 0 512 ++ ramp 512 512
      ++ pad_to 512 (bytes_of [72, 101, 108, 108, 111, 44, 32, 119, 111, 114, 108, 100, 33])

/-- The volume `fat_open` builds from `sample_disk`. -/
def sample_volume : volume_t :=
  volume_of_super sample_disk (parse_super (disk_bytes sample_disk 0 1))

/-- An image of 100 bytes: too short for a boot sector. -/
def truncated_disk : disk_t where
  disk := List.replicate 100 0

/-- A boot sector of a 32 MiB volume: 65536 sectors of 512 bytes, so that the 16-bit
sector count is 0 and the 32-bit one is 65536 (4 sectors per cluster, 1 reserved sector,
2 FATs of 64 sectors, 512 root entries). -/
def boot_32mib : disk_t where
  disk := mk_boot 512 4 1 2 512 0 64 65536

/-- A boot sector with 65535 reserved sectors, 2 FATs of 256 sectors, 512 root entries and
512-byte sectors. -/
def boot_reserved : disk_t where
  disk := mk_boot 512 1 65535 2 512 0 256 200000

/-- Name bytes of `BAD     BIN`. -/
def name_BAD_BIN : List Nat := [66, 65, 68, 32, 32, 32, 32, 32, 66, 73, 78]

/-- A six-sector image laid out as `sample_disk` whose FAT holds `FAT[2] = 3` and
`FAT[3] = 0xFFF7` (cluster 3 is marked bad) and whose root directory holds `BAD.BIN`
(1000 bytes, first cluster 2). -/
def bad_disk : disk_t where
  disk :=
    mk_boot 512 1 1 1 16 6 1 0
      ++ mk_fat [0xFFF8, 0xFFFF, 3, 0xFFF7]
      ++ pad_to 512 (mk_entry name_BAD_BIN 0x20 2 1000)
      ++ List.replicate 1536 0

/-- A six-sector image laid out as `sample_disk` whose FAT holds the cycle `FAT[2] = 3`,
`FAT[3] = 2` and whose root directory holds `BAD.BIN` (1000 bytes, first cluster 2). -/
def cyclic_disk : disk_t where
  disk :=
    mk_boot 512 1 1 1 16 6 1 0
      ++ mk_fat [0xFFF8, 0xFFFF, 3, 2]
      ++ pad_to 512 (mk_entry name_BAD_BIN 0x20 2 1000)
      ++ List.replicate 1536 0

/-- A six-sector image laid out as `sample_disk` whose FAT holds `FAT[2] = 200`,
`FAT[200] = 1` and `FAT[1] = 0xFFFF`, and whose root directory holds `BAD.BIN`
(1000 bytes, first cluster 2). -/
def stray_disk : disk_t where
  disk :=
    mk_boot 512 1 1 1 16 6 1 0
      ++ mk_fat ([0xFFF8, 0xFFFF, 200] ++ List.replicate 197 0 ++ [1])
      ++ pad_to 512 (mk_entry name_BAD_BIN 0x20 2 1000)
      ++ List.replicate 1536 0

/-- The handle `file_open` returns on `sample_volume` for `BIG.BIN`. -/
def sample_big : file_t :=
  file_of_entry sample_volume (mk_entry name_BIG_BIN 0x20 2 519)
    (some (chain_of (fat_buffer sample_volume) 2 2))

/-- Name bytes of `EMPTY` (no extension). -/
def name_EMPTY : List Nat := [69, 77, 80, 84, 89, 32, 32, 32, 32, 32, 32]

/-- Name bytes of `SUBDIR` (no extension). -/
def name_SUBDIR : List Nat := [83, 85, 66, 68, 73, 82, 32, 32, 32, 32, 32]

/-- Name bytes of `FILE1   TXT`. -/
def name_FILE1_TXT : List Nat := [70, 73, 76, 69, 49, 32, 32, 32, 84, 88, 84]

/-- A seven-sector image laid out as `sample_disk` (512-byte sectors, one sector per
cluster, FAT chains `2 → 3`, `4` and `5`) whose root directory holds `HELLO.TXT` (13 bytes,
cluster 4), `BIG.BIN` (519 bytes, first cluster 2), `EMPTY` (0 bytes), the directory
`SUBDIR` (attribute `0x10`, cluster 5) and `FILE1.TXT` (13 bytes, cluster 4).  Cluster 2
holds the bytes `0, 1, ..., 255, 0, ...` and cluster 3 the bytes `100, 101, ...`. -/
def listing_disk : disk_t where
  disk :=
    mk_boot 512 1 1 1 16 7 1 0
      ++ mk_fat [0xFFF8, 0xFFFF, 3, 0xFFFF, 0xFFFF, 0xFFFF]
      ++ pad_to 512
          (mk_entry name_HELLO_TXT 0x20 4 13 ++ mk_entry name_BIG_BIN 0x20 2 519
            ++ mk_entry name_EMPTY 0x20 0 0 ++ mk_entry name_SUBDIR 0x10 5 0
            ++ mk_entry name_FILE1_TXT 0x20 4 13)
      ++ ramp 0 512 ++ ramp 100 512
      ++ pad_to 512 (bytes_of [72, 101, 108, 108, 111, 44, 32, 119, 111, 114, 108, 100, 33])
      ++ List.replicate 512 0

/-- The volume `fat_open` builds from `listing_disk`. -/
def listing_volume : volume_t :=
  volume_of_super listing_disk (parse_super (disk_bytes listing_disk 0 1))

/-- The handle `file_open` returns on `listing_volume` for `BIG.BIN`. -/
def listing_big : file_t :=
  file_of_entry listing_volume (mk_entry name_BIG_BIN 0x20 2 519)
    (some (chain_of (fat_buffer listing_volume) 2 2))

/-- The handle `file_open` returns on `listing_volume` for `EMPTY`. -/
def listing_empty : file_t :=
  file_of_entry listing_volume (mk_entry name_EMPTY 0x20 0 0) none

/-- A caller's record for `dir_read`: 20 zero bytes of name, size and flags 0. -/
def blank_entry : dir_entry_t where
  name := List.replicate 20 0
  size := 0
  is_archived := 0
  is_readonly := 0
  is_system := 0
  is_hidden := 0
  is_directory := 0

/-- A directory handle on `listing_volume` whose `volume` member has been assigned, with
the cursor at slot `off`. -/
def listing_dir (off : Nat) : dir_t where
  volume := some listing_volume
  disk := listing_disk
  dir_offset := off

/-- The handle `file_open` returns on `listing_volume` for `HELLO.TXT`. -/
def listing_hello : file_t :=
  file_of_entry listing_volume (mk_entry name_HELLO_TXT 0x20 4 13)
    (some (chain_of (fat_buffer listing_volume) 4 1))

/-- The handle `file_open` returns on `sample_volume` for `HELLO.TXT`. -/
def sample_hello : file_t :=
  file_of_entry sample_volume (mk_entry name_HELLO_TXT 0x20 4 13)
    (some (chain_of (fat_buffer sample_volume) 4 1))

/-- A four-sector image: boot sector as in `sample_disk` (announcing 5 sectors), FAT with
the chain `2 → 3`, root directory with `BIG.BIN` (1000 bytes, first cluster 2), and
cluster 2 holding the bytes `0, 1, ..., 255, 0, ...`.  The image ends there: the sector of
cluster 3 cannot be read. -/
def short_disk : disk_t where
  disk :=
    mk_boot 512 1 1 1 16 5 1 0
      ++ mk_fat [0xFFF8, 0xFFFF, 3, 0xFFFF]
      ++ pad_to 512 (mk_entry name_BIG_BIN 0x20 2 1000)
      ++ ramp 0 512

/-- The volume `fat_open` builds from `short_disk`. -/
def short_volume : volume_t :=
  volume_of_super short_disk (parse_super (disk_bytes short_disk 0 1))

/-- The handle `file_open` returns on `short_volume` for `BIG.BIN`. -/
def short_big : file_t :=
  file_of_entry short_volume (mk_entry name_BIG_BIN 0x20 2 1000)
    (some (chain_of (fat_buffer short_volume) 2 2))

/-- A four-sector image laid out as `sample_disk` whose root directory holds the single
file `FILE1.TXT` (13 bytes, first cluster 2, `FAT[2] = 0xFFFF`), with `Hello, world!` in
cluster 2. -/
def digit_disk : disk_t where
  disk :=
    mk_boot 512 1 1 1 16 4 1 0
      ++ mk_fat [0xFFF8, 0xFFFF, 0xFFFF]
      ++ pad_to 512 (mk_entry name_FILE1_TXT 0x20 2 13)
      ++ pad_to 512 (bytes_of [72, 101, 108, 108, 111, 44, 32, 119, 111, 114, 108, 100, 33])

/-- The volume `fat_open` builds from `digit_disk`. -/
def digit_volume : volume_t :=
  volume_of_super digit_disk (parse_super (disk_bytes digit_disk 0 1))

/-- Name bytes of `SUBDIRAB` (no extension). -/
def name_SUBDIRAB : List Nat := [83, 85, 66, 68, 73, 82, 65, 66, 32, 32, 32]

/-- Name bytes of `SUB` (no extension). -/
def name_SUB : List Nat := [83, 85, 66, 32, 32, 32, 32, 32, 32, 32, 32]

/-- A six-sector image laid out as `sample_disk` whose root directory holds, in this
order, the file `SUBDIRAB` (5 bytes, cluster 2), the directory `SUBDIR` (attribute `0x10`,
cluster 3) and the file `SUB` (7 bytes, cluster 4); every chain has one cluster. -/
def prefix_disk : disk_t where
  disk :=
    mk_boot 512 1 1 1 16 6 1 0
      ++ mk_fat [0xFFF8, 0xFFFF, 0xFFFF, 0xFFFF, 0xFFFF]
      ++ pad_to 512
          (mk_entry name_SUBDIRAB 0x20 2 5 ++ mk_entry name_SUBDIR 0x10 3 0
            ++ mk_entry name_SUB 0x20 4 7)
      ++ pad_to 512 (bytes_of [102, 105, 114, 115, 116])
      ++ List.replicate 512 0
      ++ pad_to 512 (bytes_of [115, 101, 99, 111, 110, 100, 46])

/-- The volume `fat_open` builds from `prefix_disk`. -/
def prefix_volume : volume_t :=
  volume_of_super prefix_disk (parse_super (disk_bytes prefix_disk 0 1))

/-- The handle on the entry `SUBDIRAB` of `prefix_disk`. -/
def prefix_subdirab : file_t :=
  file_of_entry prefix_volume (mk_entry name_SUBDIRAB 0x20 2 5)
    (some (chain_of (fat_buffer prefix_volume) 2 1))

/-- The handle `dir_open` returns on `listing_volume`: its `volume` member has not been
assigned. -/
def listing_dir_opened : dir_t where
  volume := none
  disk := listing_disk
  dir_offset := 0

/-! ## Block device and volume -/

/-- For sectors below `2 ^ 22` the `int` product `first_sector * 512` is exact. -/
theorem disk_position_eq (s : Nat) (h : s < 2 ^ 22) : disk_position s = s * 512 := by
  have h1 : s * 512 % 2 ^ 32 = s * 512 := Nat.mod_eq_of_lt (by omega)
  have h2 : to_int32 (s * 512) = ((s * 512 : Nat) : Int) := by
    unfold to_int32
    rw [h1, if_pos (by omega)]
  unfold disk_position
  rw [h2, if_neg (by omega)]
  exact Int.toNat_ofNat _

theorem disk_bytes_length (pdisk : disk_t) (s n : Nat) :
    (disk_bytes pdisk s n).length = min (n * 512) (pdisk.disk.length - disk_position s) := by
  simp [disk_bytes]

theorem disk_read_eq_some_iff (pdisk : disk_t) (s n : Nat) :
    disk_read pdisk s n = some (disk_bytes pdisk s n) ↔
      disk_position s + n * 512 ≤ pdisk.disk.length ∨ n = 0 := by
  unfold disk_read
  rw [disk_bytes_length]
  constructor
  · intro h
    split at h
    · omega
    · simp at h
  · intro h
    rw [if_pos]
    omega

theorem disk_read_eq_none_iff (pdisk : disk_t) (s n : Nat) :
    disk_read pdisk s n = none ↔ pdisk.disk.length < disk_position s + n * 512 ∧ n ≠ 0 := by
  unfold disk_read
  rw [disk_bytes_length]
  constructor
  · intro h
    split at h
    · simp at h
    · omega
  · intro h
    rw [if_neg]
    omega

theorem disk_read_some_eq (pdisk : disk_t) (s n : Nat) (buffer : List uint8_t)
    (h : disk_read pdisk s n = some buffer) : buffer = disk_bytes pdisk s n := by
  unfold disk_read at h
  split at h
  · exact (Option.some.inj h).symm
  · simp at h

theorem fat_open_ok_iff (pdisk : disk_t) (first_sector : Nat) (volume : volume_t) :
    fat_open pdisk first_sector = .ok volume ↔
      ∃ sec, disk_read pdisk first_sector 1 = some sec ∧ (parse_super sec).signature = 0xAA55 ∧
        (parse_super sec).bytes_per_sector ≠ 0 ∧ (parse_super sec).sectors_per_clusters ≠ 0 ∧
        volume = volume_of_super pdisk (parse_super sec) := by
  unfold fat_open
  cases hr : disk_read pdisk first_sector 1 with
  | none => simp
  | some sec =>
    by_cases h1 : (parse_super sec).signature = 0xAA55
    · by_cases h2 : (parse_super sec).bytes_per_sector = 0
      · simp [h1, h2]
      · by_cases h3 : (parse_super sec).sectors_per_clusters = 0
        · simp [h1, h2, h3]
        · simp [h1, h2, h3, eq_comm]
    · simp [h1]

/-- For sector numbers whose byte position `first_sector * 512` is a C `int`
(`first_sector < 2 ^ 22`): `fat_open` returns NULL with `EINVAL` whenever the 512-byte
sector at `first_sector` cannot be read in full or its little-endian 16-bit value at bytes
510-511 differs from `0xAA55`; when the sector is readable, carries the signature and has
non-zero `bytes_per_sector` and `sectors_per_cluster`, it returns a volume. -/
theorem fat_open_result (pdisk : disk_t) (first_sector : Nat) (hs : first_sector < 2 ^ 22) :
    ((pdisk.disk.length < first_sector * 512 + 512
        ∨ le16 (disk_bytes pdisk first_sector 1) 510 ≠ 0xAA55) →
      fat_open pdisk first_sector = .null (some .EINVAL)) ∧
    (first_sector * 512 + 512 ≤ pdisk.disk.length →
      le16 (disk_bytes pdisk first_sector 1) 510 = 0xAA55 →
      le16 (disk_bytes pdisk first_sector 1) 11 ≠ 0 →
      ((disk_bytes pdisk first_sector 1).getD 13 0).val ≠ 0 →
      ∃ volume, fat_open pdisk first_sector = .ok volume) := by
  have hp := disk_position_eq first_sector hs
  constructor
  · intro h
    by_cases hlen : pdisk.disk.length < first_sector * 512 + 512
    · have hr : disk_read pdisk first_sector 1 = none :=
        (disk_read_eq_none_iff _ _ _).2 ⟨by omega, by omega⟩
      simp only [fat_open, hr]
    · have hr : disk_read pdisk first_sector 1 = some (disk_bytes pdisk first_sector 1) :=
        (disk_read_eq_some_iff _ _ _).2 (Or.inl (by omega))
      have hsig : (parse_super (disk_bytes pdisk first_sector 1)).signature ≠ 0xAA55 := by
        rcases h with h | h
        · exact absurd h hlen
        · exact h
      simp only [fat_open, hr, if_pos hsig]
  · intro hlen hsig hbps hspc
    have hr : disk_read pdisk first_sector 1 = some (disk_bytes pdisk first_sector 1) :=
      (disk_read_eq_some_iff _ _ _).2 (Or.inl (by omega))
    have h1 : ¬ (parse_super (disk_bytes pdisk first_sector 1)).signature ≠ 0xAA55 :=
      not_not.2 hsig
    have h2 : ¬ (parse_super (disk_bytes pdisk first_sector 1)).bytes_per_sector = 0 := hbps
    have h3 : ¬ (parse_super (disk_bytes pdisk first_sector 1)).sectors_per_clusters = 0 := hspc
    exact ⟨volume_of_super pdisk (parse_super (disk_bytes pdisk first_sector 1)),
      by simp only [fat_open, hr, if_neg h1, if_neg h2, if_neg h3]⟩

/-- The image `truncated_disk` (100 bytes) is rejected at sector 0, and the six-sector
image `sample_disk` yields a volume at sector 0. -/
theorem fat_open_result_witness :
    fat_open truncated_disk 0 = .null (some .EINVAL) ∧
      ∃ volume, fat_open sample_disk 0 = .ok volume :=
  ⟨(fat_open_result truncated_disk 0 (by decide)).1 (Or.inl (by decide!)),
   (fat_open_result sample_disk 0 (by decide)).2 (by decide!) (by decide!) (by decide!)
     (by decide!)⟩

/-- C7 (evaluation at the failing input): `sample_disk` has six sectors (3072 bytes).
`fat_open` at sector 6 fails with `EINVAL`, as a short read should.  At
`first_sector = 0xFFFFFFFF`, which `disk_read` receives as the `int32_t` value `-1`, and
at `first_sector = 4194304`, whose product by 512 does not fit an `int`, the image has no
such sector: `fseek` is given a negative offset and fails, its result is ignored, `fread`
delivers the sector at position 0, and `fat_open` returns the volume of sector 0. -/
theorem fat_open_unreadable_sector :
    sample_disk.disk.length = 3072 ∧
      fat_open sample_disk 6 = .null (some .EINVAL) ∧
      fat_open sample_disk 0xFFFFFFFF = .ok sample_volume ∧
      fat_open sample_disk 4194304 = .ok sample_volume := by
  refine ⟨by decide!, ?_, ?_, ?_⟩ <;>
    (set_option maxRecDepth 8000 in rfl)

/-- What `fat_open` stores in `total_sectors`: the selected sector count narrowed to the
16 bits of the member. -/
theorem fat_open_total_sectors (pdisk : disk_t) (first_sector : Nat) (volume : volume_t)
    (h : fat_open pdisk first_sector = .ok volume) :
    volume.total_sectors =
      (if volume.super.number_of_sectors = 0 then volume.super.number_of_sectors_in_filesystem
       else volume.super.number_of_sectors) % 65536 := by
  obtain ⟨sec, -, -, -, -, rfl⟩ := (fat_open_ok_iff _ _ _).1 h
  rfl

/-- C8 (evaluation at the failing input): the boot sector `boot_32mib` has the 16-bit
sector count 0 and the 32-bit sector count 65536; `fat_open` accepts it and leaves
`total_sectors = 0`, not 65536. -/
theorem fat_open_total_sectors_32mib :
    ∃ volume, fat_open boot_32mib 0 = .ok volume ∧ volume.super.number_of_sectors = 0 ∧
      volume.super.number_of_sectors_in_filesystem = 65536 ∧ volume.total_sectors = 0 := by
  refine ⟨volume_of_super boot_32mib (parse_super (disk_bytes boot_32mib 0 1)),
    ?_, ?_, ?_, ?_⟩ <;>
    (set_option maxRecDepth 8000 in rfl)

/-- What `fat_open` stores in `first_data_sector` and `root_dir_sectors`. -/
theorem fat_open_first_data_sector (pdisk : disk_t) (first_sector : Nat) (volume : volume_t)
    (h : fat_open pdisk first_sector = .ok volume) :
    volume.root_dir_sectors =
        ((volume.super.maximum_number_of_files * 32 + (volume.super.bytes_per_sector - 1))
          / volume.super.bytes_per_sector) % 65536 ∧
      volume.first_data_sector =
        (volume.super.size_of_reserved_area
          + volume.super.number_of_fats * volume.super.size_of_fat
          + volume.root_dir_sectors) % 65536 := by
  obtain ⟨sec, -, -, -, -, rfl⟩ := (fat_open_ok_iff _ _ _).1 h
  exact ⟨rfl, rfl⟩

/-- C9 (evaluation at the failing input): the boot sector `boot_reserved` has 512-byte
sectors, 65535 reserved sectors, 2 FATs of 256 sectors and 512 root entries, so that
`reserved_sectors + fat_count * sectors_per_fat + ceil(512 * 32 / 512) = 66079`;
`fat_open` accepts it and leaves `first_data_sector = 543`. -/
theorem fat_open_first_data_sector_reserved :
    ∃ volume, fat_open boot_reserved 0 = .ok volume ∧ volume.super.bytes_per_sector = 512 ∧
      volume.super.size_of_reserved_area
        + volume.super.number_of_fats * volume.super.size_of_fat
        + (volume.super.maximum_number_of_files * 32 + 511) / 512 = 66079 ∧
      volume.root_dir_sectors = 32 ∧ volume.first_data_sector = 543 := by
  refine ⟨volume_of_super boot_reserved (parse_super (disk_bytes boot_reserved 0 1)),
    ?_, ?_, ?_, ?_, ?_⟩ <;>
    (set_option maxRecDepth 8000 in rfl)

/-! ## FAT chain resolver -/

theorem le16_lt (b : List uint8_t) (off : Nat) : le16 b off < 65536 := by
  unfold le16
  have h1 := (b.getD off 0).isLt
  have h2 := (b.getD (off + 1) 0).isLt
  omega

theorem le32_lt (b : List uint8_t) (off : Nat) : le32 b off < 2 ^ 32 := by
  unfold le32
  have h1 := (b.getD off 0).isLt
  have h2 := (b.getD (off + 1) 0).isLt
  have h3 := (b.getD (off + 2) 0).isLt
  have h4 := (b.getD (off + 3) 0).isLt
  omega

theorem fat_next_lt (buffer : List uint8_t) (c : Nat) : fat_next buffer c < 65536 :=
  le16_lt _ _

theorem u16_of_lt {x : Nat} (h : x < 65536) : u16 x = x := by
  unfold u16
  omega

theorem u32_of_lt {x : Nat} (h : x < 2 ^ 32) : u32 x = x := by
  unfold u32
  omega

theorem usz_of_lt {x : Nat} (h : x < 2 ^ 64) : usz x = x := by
  unfold usz
  omega

/-- The first loop follows the FAT for `n` rounds while the clusters met stay below the
bad-cluster value. -/
theorem count_clusters_steps (buffer : List uint8_t) (n : Nat) :
    ∀ (fuel c k : Nat), (∀ m, m < n → (fat_next buffer)^[m] c < BAD_CLUSTER_FAT_16) →
      count_clusters buffer (fuel + n) c k
        = count_clusters buffer fuel ((fat_next buffer)^[n] c) (k + n) := by
  induction n with
  | zero => intro fuel c k _; rfl
  | succ n ih =>
    intro fuel c k h
    have h0 : c < BAD_CLUSTER_FAT_16 := h 0 (Nat.succ_pos n)
    have hn : ∀ m, m < n → (fat_next buffer)^[m] (fat_next buffer c) < BAD_CLUSTER_FAT_16 := by
      intro m hm
      have := h (m + 1) (Nat.succ_lt_succ hm)
      rwa [Function.iterate_succ_apply] at this
    have e : fuel + (n + 1) = (fuel + n) + 1 := rfl
    have hE : ¬ c ≥ EOC_FAT_16 := by
      unfold BAD_CLUSTER_FAT_16 at h0
      unfold EOC_FAT_16
      omega
    have hB : ¬ c = BAD_CLUSTER_FAT_16 := Nat.ne_of_lt h0
    rw [e, count_clusters, if_neg hE, if_neg hB, Function.iterate_succ_apply]
    have := ih fuel (fat_next buffer c) (k + 1) hn
    rw [show k + (n + 1) = k + 1 + n by omega]
    exact this

theorem chain_of_clusters_length (buffer : List uint8_t) (c0 n : Nat) :
    (chain_of buffer c0 n).clusters.length = n + 1 := by
  simp [chain_of]

theorem chain_of_getD (buffer : List uint8_t) (c0 n i : Nat) (h : i ≤ n) :
    (chain_of buffer c0 n).clusters.getD i 0 = (fat_next buffer)^[i] c0 := by
  have hi : i < ((List.range (n + 1)).map (fun i => (fat_next buffer)^[i] c0)).length := by
    simp
    omega
  simp only [chain_of]
  rw [List.getD_eq_getElem _ _ hi, List.getElem_map, List.getElem_range]

/-- One round of the second loop at a cluster below the bad-cluster value. -/
theorem fill_clusters_step (buffer : List uint8_t) (fuel c0 n : Nat) (hn : n < 65536)
    (h : (fat_next buffer)^[n] c0 < BAD_CLUSTER_FAT_16) :
    fill_clusters buffer (fuel + 1) (chain_of buffer c0 n)
      = fill_clusters buffer fuel (chain_of buffer c0 (n + 1)) := by
  have hg : (chain_of buffer c0 n).clusters.getD (chain_of buffer c0 n).size 0
      = (fat_next buffer)^[n] c0 := chain_of_getD buffer c0 n n (Nat.le_refl n)
  have hE : ¬ (fat_next buffer)^[n] c0 ≥ EOC_FAT_16 := by
    unfold BAD_CLUSTER_FAT_16 at h
    unfold EOC_FAT_16
    omega
  have hB : ¬ (fat_next buffer)^[n] c0 = BAD_CLUSTER_FAT_16 := Nat.ne_of_lt h
  rw [fill_clusters, hg, if_neg hE, if_neg hB]
  congr 1
  have hsz : (chain_of buffer c0 n).size = n := rfl
  rw [hsz, u16_of_lt hn, chain_of_getD buffer c0 n n (Nat.le_refl n)]
  have htake : (chain_of buffer c0 n).clusters.take (n + 1) = (chain_of buffer c0 n).clusters := by
    apply List.take_of_length_le
    rw [chain_of_clusters_length]
  rw [htake]
  simp only [chain_of]
  rw [List.range_succ (n + 1), List.map_append, List.map_singleton,
    Function.iterate_succ_apply']
  rfl

/-- The second loop follows the FAT for `n` rounds while the clusters met stay below the
bad-cluster value. -/
theorem fill_clusters_steps (buffer : List uint8_t) (c0 n : Nat) (hn : n ≤ 65536) :
    ∀ fuel, (∀ m, m < n → (fat_next buffer)^[m] c0 < BAD_CLUSTER_FAT_16) →
      fill_clusters buffer (fuel + n) (chain_of buffer c0 0)
        = fill_clusters buffer fuel (chain_of buffer c0 n) := by
  induction n with
  | zero => intro fuel _; rfl
  | succ n ih =>
    intro fuel h
    have e : fuel + (n + 1) = (fuel + 1) + n := by omega
    rw [e, ih (by omega) (fuel + 1) (fun m hm => h m (by omega))]
    exact fill_clusters_step buffer fuel c0 n (by omega) (h n (Nat.lt_succ_self n))

/-- A walk that repeats a cluster never leaves the clusters it met before the repeat. -/
theorem iterate_periodic_lt (f : Nat → Nat) (c x y B : Nat) (hxy : x < y)
    (heq : f^[x] c = f^[y] c) (hlt : ∀ m, m < y → f^[m] c < B) : ∀ m, f^[m] c < B := by
  intro m
  induction m using Nat.strong_induction_on with
  | _ m ih =>
    by_cases hm : m < y
    · exact hlt m hm
    · have e1 : m = (m - y) + y := by omega
      have e2 : f^[m] c = f^[(m - y) + x] c := by
        have e3 : f^[m] c = f^[m - y] (f^[y] c) := by
          rw [← Function.iterate_add_apply, ← e1]
        rw [e3, ← heq, ← Function.iterate_add_apply]
      rw [e2]
      exact ih _ (by omega)

/-- A walk that reaches a value `≥ B` after `n` entries, all clusters before being `< B`,
has `n ≤ B`: the clusters before are pairwise different. -/
theorem iterate_reach_le (f : Nat → Nat) (c n B : Nat)
    (hlt : ∀ m, m < n → f^[m] c < B) (hge : B ≤ f^[n] c) : n ≤ B := by
  by_contra hcon
  have hcard : (Finset.range B).card < (Finset.range (B + 1)).card := by simp
  have hmaps : ∀ a ∈ Finset.range (B + 1), f^[a] c ∈ Finset.range B := by
    intro a ha
    rw [Finset.mem_range] at ha ⊢
    exact hlt a (by omega)
  obtain ⟨x, hx, y, hy, hne, heq⟩ := Finset.exists_ne_map_eq_of_card_lt_of_maps_to hcard hmaps
  rw [Finset.mem_range] at hx hy
  rcases Nat.lt_or_gt_of_ne hne with hlt2 | hlt2
  · have := iterate_periodic_lt f c x y B hlt2 heq (fun m hm => hlt m (by omega)) n
    omega
  · have := iterate_periodic_lt f c y x B hlt2 heq.symm (fun m hm => hlt m (by omega)) n
    omega

/-- Result of `get_chain_fat16` on a walk that meets an end-of-chain value after `n`
entries without meeting the bad-cluster value before. -/
theorem get_chain_fat16_eoc (fuel : Nat) (volume : volume_t) (size c0 n : Nat)
    (hsize : 0 < size)
    (hlt : ∀ m, m < n → (fat_next (fat_buffer volume))^[m] c0 < BAD_CLUSTER_FAT_16)
    (hend : EOC_FAT_16 ≤ (fat_next (fat_buffer volume))^[n] c0) (hfuel : n < fuel) :
    get_chain_fat16 fuel volume size c0 = .ok (chain_of (fat_buffer volume) c0 n) := by
  have hn : n ≤ BAD_CLUSTER_FAT_16 :=
    iterate_reach_le _ c0 n BAD_CLUSTER_FAT_16 hlt (by
      unfold BAD_CLUSTER_FAT_16; unfold EOC_FAT_16 at hend; omega)
  obtain ⟨r, rfl⟩ : ∃ r, fuel = (r + 1) + n := ⟨fuel - n - 1, by omega⟩
  have hcount : count_clusters (fat_buffer volume) (r + 1 + n) c0 0 = .ok (0 + n) := by
    rw [count_clusters_steps _ n (r + 1) c0 0 hlt, count_clusters, if_pos hend]
  have hfill : fill_clusters (fat_buffer volume) (r + 1 + n) { clusters := [c0], size := 0 }
      = .ok (chain_of (fat_buffer volume) c0 n) := by
    have h0 : ({ clusters := [c0], size := 0 } : clusters_chain_t)
        = chain_of (fat_buffer volume) c0 0 := rfl
    rw [h0, fill_clusters_steps _ c0 n (by unfold BAD_CLUSTER_FAT_16 at hn; omega) (r + 1) hlt,
      fill_clusters, if_pos]
    show (chain_of (fat_buffer volume) c0 n).clusters.getD n 0 ≥ EOC_FAT_16
    rw [chain_of_getD _ c0 n n (Nat.le_refl n)]
    exact hend
  unfold get_chain_fat16
  rw [if_neg (by omega), hcount]
  exact hfill

/-- Result of `get_chain_fat16` on a walk that meets the bad-cluster value after `n`
entries: NULL. -/
theorem get_chain_fat16_bad (fuel : Nat) (volume : volume_t) (size c0 n : Nat)
    (hlt : ∀ m, m < n → (fat_next (fat_buffer volume))^[m] c0 < BAD_CLUSTER_FAT_16)
    (hend : (fat_next (fat_buffer volume))^[n] c0 = BAD_CLUSTER_FAT_16) (hfuel : n < fuel) :
    get_chain_fat16 fuel volume size c0 = .null none := by
  obtain ⟨r, rfl⟩ : ∃ r, fuel = (r + 1) + n := ⟨fuel - n - 1, by omega⟩
  unfold get_chain_fat16
  split
  · rfl
  · have hE : ¬ (fat_next (fat_buffer volume))^[n] c0 ≥ EOC_FAT_16 := by
      rw [hend]; decide
    rw [count_clusters_steps _ n (r + 1) c0 0 hlt, count_clusters, if_neg hE, if_pos hend]

/-- Result of `get_chain_fat16` while the walk has not met a value `≥ 0xFFF7`: the
first loop is still running when the fuel is used up. -/
theorem get_chain_fat16_timeout (fuel : Nat) (volume : volume_t) (size c0 : Nat)
    (hsize : 0 < size)
    (hlt : ∀ m, m < fuel → (fat_next (fat_buffer volume))^[m] c0 < BAD_CLUSTER_FAT_16) :
    get_chain_fat16 fuel volume size c0 = .timeout := by
  unfold get_chain_fat16
  rw [if_neg (by omega)]
  have := count_clusters_steps (fat_buffer volume) fuel 0 c0 0 hlt
  rw [Nat.zero_add] at this
  rw [this]
  rfl

/-- C3: when following the FAT entries from `c0` reaches a value `≥ 0xFFF8` after `n`
entries without meeting `0xFFF7` before (every cluster read lying inside the FAT buffer),
`get_chain_fat16` returns, for a file size `> 0` and any fuel above `n`, a chain of
length `n` with `clusters[0] = c0` and `clusters[i+1] = FAT[clusters[i]]` for `i + 1 < n`;
the `n` members are below `0xFFF7`, and the end-of-chain value sits in slot `n`, outside
the members. -/
theorem get_chain_fat16_chain (fuel : Nat) (volume : volume_t) (size c0 n : Nat)
    (hsize : 0 < size)
    (hlt : ∀ m, m < n → (fat_next (fat_buffer volume))^[m] c0 < BAD_CLUSTER_FAT_16)
    (hend : EOC_FAT_16 ≤ (fat_next (fat_buffer volume))^[n] c0)
    (_hmem : fat_reads_in_bounds volume c0 n) (hfuel : n < fuel) :
    ∃ chain, get_chain_fat16 fuel volume size c0 = .ok chain ∧ chain.size = n ∧
      chain.clusters.getD 0 0 = c0 ∧
      (∀ i, i + 1 < n →
        chain.clusters.getD (i + 1) 0 = fat_entry (fat_buffer volume) (chain.clusters.getD i 0)) ∧
      (∀ i, i < n → chain.clusters.getD i 0 < BAD_CLUSTER_FAT_16) ∧
      EOC_FAT_16 ≤ chain.clusters.getD n 0 := by
  refine ⟨chain_of (fat_buffer volume) c0 n,
    get_chain_fat16_eoc fuel volume size c0 n hsize hlt hend hfuel, rfl, ?_, ?_, ?_, ?_⟩
  · rw [chain_of_getD _ c0 n 0 (Nat.zero_le n)]
    rfl
  · intro i hi
    rw [chain_of_getD _ c0 n (i + 1) (by omega), chain_of_getD _ c0 n i (by omega),
      Function.iterate_succ_apply']
    have hb := hlt i (by omega)
    generalize (fat_next (fat_buffer volume))^[i] c0 = x at hb
    unfold fat_next
    rw [u16_of_lt (by unfold BAD_CLUSTER_FAT_16 at hb; omega)]
  · intro i hi
    rw [chain_of_getD _ c0 n i (by omega)]
    exact hlt i hi
  · rw [chain_of_getD _ c0 n n (Nat.le_refl n)]
    exact hend

/-- The FAT of `sample_disk` leads from cluster 2 to cluster 3 and then to `0xFFFF`. -/
theorem sample_walk :
    (fat_next (fat_buffer sample_volume))^[0] 2 = 2 ∧
    (fat_next (fat_buffer sample_volume))^[1] 2 = 3 ∧
    (fat_next (fat_buffer sample_volume))^[2] 2 = 0xFFFF := by
  decide!

/-- Witness of C3: on `sample_disk` the chain of first cluster 2 is `2, 3`. -/
theorem get_chain_fat16_chain_witness :
    ∃ chain, get_chain_fat16 3 sample_volume 519 2 = .ok chain ∧ chain.size = 2 ∧
      chain.clusters.getD 0 0 = 2 ∧
      (∀ i, i + 1 < 2 →
        chain.clusters.getD (i + 1) 0
          = fat_entry (fat_buffer sample_volume) (chain.clusters.getD i 0)) ∧
      (∀ i, i < 2 → chain.clusters.getD i 0 < BAD_CLUSTER_FAT_16) ∧
      EOC_FAT_16 ≤ chain.clusters.getD 2 0 :=
  get_chain_fat16_chain 3 sample_volume 519 2 2 (by decide)
    (by
      intro m hm
      have h := sample_walk
      interval_cases m
      · rw [h.1]; decide
      · rw [h.2.1]; decide)
    (by rw [sample_walk.2.2]; decide)
    (by
      refine ⟨by decide!, ?_⟩
      intro i hi
      have h := sample_walk
      interval_cases i
      · rw [h.1]; decide!
      · rw [h.2.1]; decide!)
    (by decide)

/-- The second loop keeps every member of the chain below the bad-cluster value. -/
theorem fill_clusters_members_lt (buffer : List uint8_t) (fuel : Nat) :
    ∀ (temp chain : clusters_chain_t), temp.clusters.length = temp.size + 1 →
      (∀ k, k < temp.size → temp.clusters.getD k 0 < BAD_CLUSTER_FAT_16) →
      fill_clusters buffer fuel temp = .ok chain →
      ∀ k, k < chain.size → chain.clusters.getD k 0 < BAD_CLUSTER_FAT_16 := by
  induction fuel with
  | zero =>
    intro temp chain _ _ h
    simp [fill_clusters] at h
  | succ fuel ih =>
    intro temp chain hlen hinv h
    rw [fill_clusters] at h
    split at h
    · cases h
      exact hinv
    · rename_i hE
      split at h
      · cases h
      · rename_i hB
        refine ih _ chain ?_ ?_ h
        · simp [hlen]
        · intro k hk
          have htake : temp.clusters.take (temp.size + 1) = temp.clusters :=
            List.take_of_length_le (by omega)
          simp only [htake] at hk ⊢
          have hk2 : k < temp.clusters.length := by omega
          rw [List.getD_eq_getElem _ _ (by simp; omega), List.getElem_append_left hk2,
            ← List.getD_eq_getElem _ 0 hk2]
          by_cases hks : k < temp.size
          · exact hinv k hks
          · have hke : k = temp.size := by omega
            rw [hke]
            unfold BAD_CLUSTER_FAT_16 EOC_FAT_16 at *
            omega

/-- C4 (as amended): every member `C[k]`, `k < |C|`, of a chain returned by
`get_chain_fat16` is below `0xFFF7`; in particular `C[k] ≠ 0xFFF7`. -/
theorem get_chain_fat16_members (fuel : Nat) (volume : volume_t) (size c0 : Nat)
    (chain : clusters_chain_t) (h : get_chain_fat16 fuel volume size c0 = .ok chain)
    (k : Nat) (hk : k < chain.size) :
    chain.clusters.getD k 0 < BAD_CLUSTER_FAT_16 ∧ chain.clusters.getD k 0 ≠ 0xFFF7 := by
  have hlt : chain.clusters.getD k 0 < BAD_CLUSTER_FAT_16 := by
    unfold get_chain_fat16 at h
    split at h
    · cases h
    · split at h
      · exact fill_clusters_members_lt _ fuel { clusters := [c0], size := 0 } chain rfl
          (by intro k hk; cases hk) h k hk
      · cases h
      · cases h
      · cases h
  exact ⟨hlt, by unfold BAD_CLUSTER_FAT_16 at hlt; omega⟩

/-- The volume `fat_open` builds from `stray_disk`. -/
theorem fat_open_stray_disk :
    fat_open stray_disk 0
      = .ok (volume_of_super stray_disk (parse_super (disk_bytes stray_disk 0 1))) := by
  (set_option maxRecDepth 8000 in rfl)

/-- Witness of C4 (as amended): the members of the chain `2, 200, 1` of `stray_disk`. -/
theorem get_chain_fat16_members_witness :
    (chain_of (fat_buffer (volume_of_super stray_disk (parse_super (disk_bytes stray_disk 0 1))))
        2 3).clusters.getD 1 0 < BAD_CLUSTER_FAT_16 ∧
      (chain_of (fat_buffer (volume_of_super stray_disk (parse_super (disk_bytes stray_disk 0 1))))
        2 3).clusters.getD 1 0 ≠ 0xFFF7 :=
  get_chain_fat16_members 10
    (volume_of_super stray_disk (parse_super (disk_bytes stray_disk 0 1))) 1 2
    (chain_of (fat_buffer (volume_of_super stray_disk (parse_super (disk_bytes stray_disk 0 1))))
      2 3)
    (by decide!) 1 (by decide)

/-- C4 (counterexample): on `stray_disk`, a volume with `total_clusters = 6`,
`get_chain_fat16` returns for first cluster 2 the chain `2, 200, 1`: member 1 exceeds
`total_clusters + 1` and member 2 is below 2. -/
theorem get_chain_fat16_out_of_range :
    ∃ volume chain, fat_open stray_disk 0 = .ok volume ∧ volume.total_clusters = 6 ∧
      get_chain_fat16 10 volume 1 2 = .ok chain ∧ chain.size = 3 ∧
      chain.clusters.getD 1 0 = 200 ∧ chain.clusters.getD 2 0 = 1 ∧
      ¬ (∀ k, k < chain.size →
          2 ≤ chain.clusters.getD k 0 ∧ chain.clusters.getD k 0 ≤ volume.total_clusters + 1 ∧
            chain.clusters.getD k 0 ≠ 0xFFF7) :=
  ⟨volume_of_super stray_disk (parse_super (disk_bytes stray_disk 0 1)),
    chain_of (fat_buffer (volume_of_super stray_disk (parse_super (disk_bytes stray_disk 0 1))))
      2 3,
    by decide!, by decide!, by decide!, by decide!, by decide!, by decide!, by decide!⟩

/-- C6 (as amended): the walk of `get_chain_fat16` (file size `> 0`) has no cap.  When the
clusters reachable from `c0` never attain a value `≥ 0xFFF7` (a cycle), the call is still
running after any number of iterations.  When `n` is the first index at which the walk
attains a value `≥ 0xFFF7`, the call is still running after `n` iterations and has
returned after `n + 1`, whatever `total_clusters` is. -/
theorem get_chain_fat16_termination (volume : volume_t) (size c0 : Nat) (hsize : 0 < size) :
    ((∀ n, (fat_next (fat_buffer volume))^[n] c0 < BAD_CLUSTER_FAT_16) →
        ∀ fuel, get_chain_fat16 fuel volume size c0 = .timeout) ∧
    (∀ n, (∀ m, m < n → (fat_next (fat_buffer volume))^[m] c0 < BAD_CLUSTER_FAT_16) →
        BAD_CLUSTER_FAT_16 ≤ (fat_next (fat_buffer volume))^[n] c0 →
        (∀ fuel, fuel ≤ n → get_chain_fat16 fuel volume size c0 = .timeout) ∧
        (∀ fuel, n < fuel → get_chain_fat16 fuel volume size c0 ≠ .timeout)) := by
  constructor
  · intro h fuel
    exact get_chain_fat16_timeout fuel volume size c0 hsize (fun m _ => h m)
  · intro n hlt hge
    constructor
    · intro fuel hfuel
      exact get_chain_fat16_timeout fuel volume size c0 hsize (fun m hm => hlt m (by omega))
    · intro fuel hfuel
      by_cases hend : EOC_FAT_16 ≤ (fat_next (fat_buffer volume))^[n] c0
      · rw [get_chain_fat16_eoc fuel volume size c0 n hsize hlt hend hfuel]
        simp
      · have hbad : (fat_next (fat_buffer volume))^[n] c0 = BAD_CLUSTER_FAT_16 := by
          unfold BAD_CLUSTER_FAT_16 EOC_FAT_16 at *
          omega
        rw [get_chain_fat16_bad fuel volume size c0 n hlt hbad hfuel]
        simp

/-- The FAT of `cyclic_disk` sends cluster 2 to 3 and cluster 3 to 2. -/
theorem cyclic_walk (m : Nat) :
    (fat_next (fat_buffer (volume_of_super cyclic_disk
        (parse_super (disk_bytes cyclic_disk 0 1)))))^[m] 2 = 2 ∨
    (fat_next (fat_buffer (volume_of_super cyclic_disk
        (parse_super (disk_bytes cyclic_disk 0 1)))))^[m] 2 = 3 := by
  induction m with
  | zero => exact Or.inl rfl
  | succ m ih =>
    rw [Function.iterate_succ_apply']
    rcases ih with h | h
    · rw [h]; exact Or.inr (by decide!)
    · rw [h]; exact Or.inl (by decide!)

/-- Witness of C6 (as amended): on `cyclic_disk` the call for first cluster 2 never
returns, and on `sample_disk` it is still running after 2 iterations and has returned
after 3. -/
theorem get_chain_fat16_termination_witness :
    (∀ fuel, get_chain_fat16 fuel
        (volume_of_super cyclic_disk (parse_super (disk_bytes cyclic_disk 0 1))) 1000 2
          = .timeout) ∧
      get_chain_fat16 2 sample_volume 519 2 = .timeout ∧
      get_chain_fat16 3 sample_volume 519 2 ≠ .timeout :=
  ⟨(get_chain_fat16_termination _ 1000 2 (by decide)).1 (by
      intro n
      rcases cyclic_walk n with h | h
      · rw [h]; decide
      · rw [h]; decide),
    ((get_chain_fat16_termination sample_volume 519 2 (by decide)).2 2
      (by
        intro m hm
        have h := sample_walk
        interval_cases m
        · rw [h.1]; decide
        · rw [h.2.1]; decide)
      (by rw [sample_walk.2.2]; decide)).1 2 (Nat.le_refl 2),
    ((get_chain_fat16_termination sample_volume 519 2 (by decide)).2 2
      (by
        intro m hm
        have h := sample_walk
        interval_cases m
        · rw [h.1]; decide
        · rw [h.2.1]; decide)
      (by rw [sample_walk.2.2]; decide)).2 3 (by decide)⟩

/-- C6 (counterexample): on `cyclic_disk`, a volume with `total_clusters = 6` whose FAT
holds the cycle `2 → 3 → 2`, the walk from cluster 2 is still running after 1000
iterations: it neither stops within `total_clusters` entries nor fails. -/
theorem get_chain_fat16_cycle_runs_on :
    ∃ volume, fat_open cyclic_disk 0 = .ok volume ∧ volume.total_clusters = 6 ∧
      fat_entry (fat_buffer volume) 2 = 3 ∧ fat_entry (fat_buffer volume) 3 = 2 ∧
      get_chain_fat16 1000 volume 1000 2 = .timeout := by
  refine ⟨volume_of_super cyclic_disk (parse_super (disk_bytes cyclic_disk 0 1)),
    ?_, ?_, ?_, ?_, by decide!⟩ <;>
    (set_option maxRecDepth 8000 in rfl)

/-- C5 (evaluation at the failing input): on `bad_disk` the file `BAD.BIN` starts at
cluster 2, `FAT[2] = 3` and `FAT[3] = 0xFFF7`; `get_chain_fat16` returns NULL, and
`file_open` still returns a handle, whose `chain` is NULL, without storing an `errno`. -/
theorem file_open_bad_cluster :
    ∃ volume f, fat_open bad_disk 0 = .ok volume ∧
      fat_entry (fat_buffer volume) 2 = 3 ∧ fat_entry (fat_buffer volume) 3 = 0xFFF7 ∧
      get_chain_fat16 10 volume 1000 2 = .null none ∧
      file_open 10 volume (bytes_of [66, 65, 68, 46, 66, 73, 78]) = .ok f ∧
      f.low_order_address_of_first_cluster = 2 ∧ f.size = 1000 ∧ f.chain = none := by
  refine ⟨volume_of_super bad_disk (parse_super (disk_bytes bad_disk 0 1)),
    file_of_entry (volume_of_super bad_disk (parse_super (disk_bytes bad_disk 0 1)))
      (mk_entry name_BAD_BIN 0x20 2 1000) none,
    ?_, ?_, ?_, ?_, ?_, ?_, ?_, ?_⟩ <;>
    (set_option maxRecDepth 8000 in rfl)

/-! ## File read with elements of one byte -/

theorem disk_bytes_getD (pdisk : disk_t) (s n i : Nat) (h : i < n * 512) :
    (disk_bytes pdisk s n).getD i 0 = pdisk.disk.getD (disk_position s + i) 0 := by
  unfold disk_bytes
  rw [List.getD_eq_getElem?_getD, List.getD_eq_getElem?_getD, List.getElem?_take, if_pos h,
    List.getElem?_drop]

theorem bytes_at_one (buffer : List uint8_t) (off : Nat) :
    bytes_at buffer off 1 = [buffer.getD off 0] := rfl

theorem bytes_at_zero (buffer : List uint8_t) (off : Nat) : bytes_at buffer off 0 = [] := rfl

theorem memcpy_end (dst src : List uint8_t) (off : Nat) (h : dst.length = off) :
    memcpy dst off src = dst ++ src := by
  unfold memcpy
  rw [List.take_of_length_le (by omega), List.drop_of_length_le (by omega), List.append_nil]

theorem memcpy_nil (dst : List uint8_t) (off : Nat) : memcpy dst off [] = dst := by
  unfold memcpy
  simp

theorem file_bytes_length (volume : volume_t) (chain : clusters_chain_t) (p m : Nat) :
    (file_bytes volume chain p m).length = m := by
  simp [file_bytes]

theorem file_bytes_succ (volume : volume_t) (chain : clusters_chain_t) (p m : Nat) :
    file_bytes volume chain p (m + 1) = file_bytes volume chain p m ++ [file_byte volume chain (p + m)] := by
  unfold file_bytes
  rw [List.range_succ, List.map_append, List.map_singleton]

theorem file_bytes_add (volume : volume_t) (chain : clusters_chain_t) (p a b : Nat) :
    file_bytes volume chain p (a + b)
      = file_bytes volume chain p a ++ file_bytes volume chain (p + a) b := by
  induction b with
  | zero => simp [file_bytes]
  | succ b ih =>
    rw [← Nat.add_assoc, file_bytes_succ, ih, file_bytes_succ, List.append_assoc, Nat.add_assoc]

theorem file_bytes_drop (volume : volume_t) (chain : clusters_chain_t) (a b : Nat) :
    (file_bytes volume chain 0 (a + b)).drop a = file_bytes volume chain a b := by
  rw [file_bytes_add, List.drop_left' (file_bytes_length _ _ _ _), Nat.zero_add]

/-- The sector `file_read` computes for a chain slot holding a data cluster inside an
image below 2 GiB: no `uint32_t` wrap-around. -/
theorem cluster_sector_eq (volume : volume_t) (chain : clusters_chain_t) (k : Nat)
    (hlen : volume.disk.disk.length < 2 ^ 31) (hspc : 0 < volume.super.sectors_per_clusters)
    (hcl : cluster_in_image volume (chain.clusters.getD k 0)) :
    cluster_sector volume chain k
      = volume.first_data_sector
        + (chain.clusters.getD k 0 - 2) * volume.super.sectors_per_clusters := by
  obtain ⟨h2, hpos⟩ := hcl
  unfold cluster_position at hpos
  unfold cluster_sector u32
  generalize chain.clusters.getD k 0 = cl at *
  have h1 : cl - 2 ≤ (cl - 2) * volume.super.sectors_per_clusters :=
    Nat.le_mul_of_pos_right _ hspc
  have h3 : (cl + 2 ^ 32 - 2) % 2 ^ 32 = cl - 2 := by omega
  rw [h3]
  omega

/-- Reading a data cluster inside the image succeeds and delivers its sectors. -/
theorem disk_read_cluster (volume : volume_t) (chain : clusters_chain_t) (k : Nat)
    (hlen : volume.disk.disk.length < 2 ^ 31) (hspc : 0 < volume.super.sectors_per_clusters)
    (hcl : cluster_in_image volume (chain.clusters.getD k 0)) :
    disk_read volume.disk (cluster_sector volume chain k) volume.super.sectors_per_clusters
      = some (disk_bytes volume.disk (cluster_sector volume chain k)
          volume.super.sectors_per_clusters) := by
  rw [disk_read_eq_some_iff]
  left
  have := hcl.2
  unfold cluster_position at this
  rw [cluster_sector_eq volume chain k hlen hspc hcl, disk_position_eq _ (by omega)]
  omega

/-- A byte of the cluster scratch buffer is the file byte at the cursor. -/
theorem cluster_buffer_getD (volume : volume_t) (chain : clusters_chain_t) (k off : Nat)
    (hbps : volume.super.bytes_per_sector = 512)
    (hlen : volume.disk.disk.length < 2 ^ 31) (hspc : 0 < volume.super.sectors_per_clusters)
    (hcl : cluster_in_image volume (chain.clusters.getD k 0))
    (hoff : off < cluster_bytes volume) :
    (disk_bytes volume.disk (cluster_sector volume chain k)
        volume.super.sectors_per_clusters).getD off 0
      = file_byte volume chain (k * cluster_bytes volume + off) := by
  have hcb : cluster_bytes volume = volume.super.sectors_per_clusters * 512 := by
    unfold cluster_bytes
    rw [hbps]
  have hin := hcl.2
  unfold cluster_position at hin
  rw [disk_bytes_getD _ _ _ _ (by omega), cluster_sector_eq volume chain k hlen hspc hcl,
    disk_position_eq _ (by omega)]
  unfold file_byte
  have hpos : 0 < cluster_bytes volume := by omega
  have hdiv : (k * cluster_bytes volume + off) / cluster_bytes volume = k := by
    rw [Nat.add_comm, Nat.add_mul_div_right _ _ hpos, Nat.div_eq_of_lt hoff, Nat.zero_add]
  have hmod : (k * cluster_bytes volume + off) % cluster_bytes volume = off := by
    rw [Nat.add_comm, Nat.add_mul_mod_self_right, Nat.mod_eq_of_lt hoff]
  rw [hdiv, hmod]
  unfold cluster_position
  congr 1
  omega

theorem file_read_step_one (f : file_t) (chain : clusters_chain_t) (nmemb p0 p : Nat)
    (s : read_locals) (ctx : ReadCtx f chain) (inv : ReadInv f chain p0 s p) :
    ∃ s1, file_read_step f chain 1 nmemb s = .next s1 ∧
      ((p < f.size ∧ ReadInv f chain p0 s1 (p + 1) ∧ s1.end_of_file = s.end_of_file) ∨
       (p = f.size ∧ ReadInv f chain p0 s1 p ∧ s1.end_of_file = true)) := by
  obtain ⟨hbps, hspc, hlen, hsize, hcl, hentry⟩ := ctx
  obtain ⟨hpos, hco, hple, hp0, hidx, hbuf, hout, hboff, hcnt⟩ := inv
  have e0 : f.file_offset * f.volume.super.sectors_per_clusters * f.volume.super.bytes_per_sector
      = f.file_offset * cluster_bytes f.volume := by
    unfold cluster_bytes; rw [Nat.mul_assoc]
  have e1 : s.file_offset * f.volume.super.sectors_per_clusters * f.volume.super.bytes_per_sector
      = s.file_offset * cluster_bytes f.volume := by
    unfold cluster_bytes; rw [Nat.mul_assoc]
  have e2 : f.volume.super.sectors_per_clusters * f.volume.super.bytes_per_sector
      = cluster_bytes f.volume := rfl
  have hcb : cluster_bytes f.volume = f.volume.super.sectors_per_clusters * 512 := by
    unfold cluster_bytes; rw [hbps]
  have hcbpos : 0 < cluster_bytes f.volume := by omega
  have hlenout : s.out.length = s.buffer_offset := by
    rw [hout, file_bytes_length, hboff]
  unfold file_read_step
  simp only [e0, e1, e2]
  have c1 : ¬ u32 (f.file_offset * cluster_bytes f.volume + f.cluster_offset) ≥ f.size := by
    unfold u32; omega
  rw [if_neg c1]
  by_cases hlt : p < f.size
  · have c2 : f.size ≥ usz (s.file_offset * cluster_bytes f.volume + s.cluster_offset + 1) := by
      unfold usz; omega
    rw [if_pos c2]
    by_cases hin : s.cluster_offset < cluster_bytes f.volume
    · have c3 : ¬ usz (s.cluster_offset + 1) > cluster_bytes f.volume := by
        unfold usz; omega
      rw [if_pos hin, if_neg c3]
      refine ⟨_, rfl, Or.inl ⟨hlt, ?_, rfl⟩⟩
      have hbyte := cluster_buffer_getD f.volume chain s.file_offset s.cluster_offset hbps hlen
        hspc (hcl _ hidx) hin
      refine ⟨?_, ?_, ?_, ?_, hidx, hbuf, ?_, ?_, ?_⟩
      · show s.file_offset * cluster_bytes f.volume + (s.cluster_offset + 1) = p + 1
        omega
      · show s.cluster_offset + 1 ≤ cluster_bytes f.volume
        omega
      · omega
      · omega
      · show memcpy s.out s.buffer_offset (bytes_at s.buffer s.cluster_offset 1) = _
        rw [memcpy_end _ _ _ hlenout, bytes_at_one, hbuf, hbyte, hpos, hout,
          show p + 1 - p0 = (p - p0) + 1 by omega, file_bytes_succ,
          show p0 + (p - p0) = p by omega]
      · show s.buffer_offset + 1 = p + 1 - p0
        omega
      · show s.how_many_elements + 1 = p + 1 - p0
        omega
    · have hco : s.cluster_offset = cluster_bytes f.volume := by omega
      have hnext : (s.file_offset + 1) * cluster_bytes f.volume = p := by
        rw [Nat.add_mul, Nat.one_mul]; omega
      have hidx1 : (s.file_offset + 1) * cluster_bytes f.volume < f.size := by omega
      have hcl1 := hcl _ hidx1
      rw [if_neg hin, disk_read_cluster f.volume chain (s.file_offset + 1) hlen hspc hcl1]
      refine ⟨_, rfl, Or.inl ⟨hlt, ?_, rfl⟩⟩
      have hbyte := cluster_buffer_getD f.volume chain (s.file_offset + 1) 0 hbps hlen
        hspc hcl1 hcbpos
      refine ⟨?_, ?_, ?_, ?_, hidx1, rfl, ?_, ?_, ?_⟩
      · show (s.file_offset + 1) * cluster_bytes f.volume + 1 = p + 1
        omega
      · show 1 ≤ cluster_bytes f.volume
        omega
      · omega
      · omega
      · show memcpy s.out s.buffer_offset (bytes_at _ 0 1) = _
        rw [memcpy_end _ _ _ hlenout, bytes_at_one, hbyte, Nat.add_zero, hnext, hout,
          show p + 1 - p0 = (p - p0) + 1 by omega, file_bytes_succ,
          show p0 + (p - p0) = p by omega]
      · show s.buffer_offset + 1 = p + 1 - p0
        omega
      · show s.how_many_elements + 1 = p + 1 - p0
        omega
  · have hpe : p = f.size := by omega
    have c2 : ¬ f.size ≥ usz (s.file_offset * cluster_bytes f.volume + s.cluster_offset + 1) := by
      unfold usz; omega
    have c3 : ¬ f.size = usz (s.file_offset * cluster_bytes f.volume + s.cluster_offset + 1) := by
      unfold usz; omega
    have hrem : usz (f.size + 2 ^ 64
        - usz (s.file_offset * cluster_bytes f.volume + s.cluster_offset)) = 0 := by
      unfold usz; omega
    rw [if_neg c2, if_neg c3, hrem, if_pos (by decide)]
    refine ⟨_, rfl, Or.inr ⟨hpe, ?_, rfl⟩⟩
    refine ⟨?_, ?_, hple, hp0, hidx, hbuf, ?_, hboff, hcnt⟩
    · show s.file_offset * cluster_bytes f.volume + usz (s.cluster_offset + int_as_size_t 0) = p
      have : int_as_size_t 0 = 0 := by decide
      rw [this]
      unfold usz; omega
    · show usz (s.cluster_offset + int_as_size_t 0) ≤ cluster_bytes f.volume
      have : int_as_size_t 0 = 0 := by decide
      rw [this]
      unfold usz; omega
    · show memcpy s.out s.buffer_offset (bytes_at s.buffer s.cluster_offset (int_as_size_t 0)) = _
      have : int_as_size_t 0 = 0 := by decide
      rw [this, bytes_at_zero, memcpy_nil, hout]

theorem file_read_loop_one (f : file_t) (chain : clusters_chain_t) (nmemb p0 : Nat)
    (ctx : ReadCtx f chain) (n : Nat) :
    ∀ (s : read_locals) (p : Nat), ReadInv f chain p0 s p →
      ∃ s1, file_read_loop f chain 1 nmemb n s = .done s1 ∧
        ReadInv f chain p0 s1 (min (p + n) f.size) ∧
        s1.end_of_file = (s.end_of_file || decide (f.size - p < n)) := by
  induction n with
  | zero =>
    intro s p inv
    refine ⟨s, rfl, ?_, by simp⟩
    have := inv.p_le
    rw [Nat.add_zero, Nat.min_eq_left this]
    exact inv
  | succ n ih =>
    intro s p inv
    obtain ⟨s1, hstep, hcase⟩ := file_read_step_one f chain nmemb p0 p s ctx inv
    rw [file_read_loop, hstep]
    rcases hcase with ⟨hlt, inv1, heof⟩ | ⟨heq, inv1, heof⟩
    · obtain ⟨s2, hloop, inv2, heof2⟩ := ih s1 (p + 1) inv1
      refine ⟨s2, hloop, ?_, ?_⟩
      · rw [show p + (n + 1) = p + 1 + n by omega]
        exact inv2
      · rw [heof2, heof]
        congr 1
        simp only [decide_eq_decide]
        omega
    · obtain ⟨s2, hloop, inv2, heof2⟩ := ih s1 p inv1
      refine ⟨s2, hloop, ?_, ?_⟩
      · rw [show min (p + (n + 1)) f.size = min (p + n) f.size by omega]
        exact inv2
      · rw [heof2, heof]
        have : decide (f.size - p < n + 1) = true := by
          simp only [decide_eq_true_eq]
          omega
        rw [this]
        simp

/-- A `file_read` of `n ≥ 1` one-byte elements from a cursor before the end of the file
returns `min n (size - p)`, delivers the file bytes from the cursor on and leaves the
cursor behind them; `end_of_file` is set when fewer than `n` bytes were left. -/
theorem file_read_one (f : file_t) (chain : clusters_chain_t) (n p : Nat) (hn : 0 < n)
    (heof : f.end_of_file = false) (hchain : f.chain = some chain) (ctx : ReadCtx f chain)
    (hat : at_offset f p) :
    ∃ r, file_read 1 n f = .ok r ∧ r.ret = min n (f.size - p) ∧
      r.out = file_bytes f.volume chain p (min n (f.size - p)) ∧
      r.stream.end_of_file = decide (f.size - p < n) ∧
      r.stream.chain = f.chain ∧ r.stream.volume = f.volume ∧ r.stream.size = f.size ∧
      at_offset r.stream (p + min n (f.size - p)) := by
  obtain ⟨hpos, hco⟩ := hat
  have hentry := ctx.hentry
  have hidx : f.file_offset * cluster_bytes f.volume < f.size := by omega
  have hcl0 := ctx.hcl _ hidx
  have hinv : ReadInv f chain p
      { file_offset := f.file_offset, cluster_offset := f.cluster_offset, buffer_offset := 0,
        how_many_elements := 0,
        buffer := disk_bytes f.volume.disk (cluster_sector f.volume chain f.file_offset)
          f.volume.super.sectors_per_clusters,
        out := [], end_of_file := f.end_of_file } p :=
    ⟨hpos, hco, by omega, Nat.le_refl p, hidx, rfl, by simp [file_bytes], by simp, by simp⟩
  obtain ⟨s1, hloop, inv1, heof1⟩ := file_read_loop_one f chain n p ctx n _ p hinv
  have hcbpos : 0 < cluster_bytes f.volume := by
    have := ctx.hbps
    have := ctx.hspc
    unfold cluster_bytes
    rw [ctx.hbps]
    omega
  have hfo : u32 s1.file_offset = s1.file_offset := by
    apply u32_of_lt
    have h1 : s1.file_offset ≤ s1.file_offset * cluster_bytes f.volume :=
      Nat.le_mul_of_pos_right _ hcbpos
    have h2 := inv1.idx
    have h3 := ctx.hsize
    omega
  have hcofit : u32 s1.cluster_offset = s1.cluster_offset := by
    apply u32_of_lt
    have h1 := inv1.co_le
    have h2 := (ctx.hcl _ inv1.idx).2
    have h3 := ctx.hlen
    have h4 : cluster_bytes f.volume = f.volume.super.sectors_per_clusters * 512 := by
      unfold cluster_bytes; rw [ctx.hbps]
    omega
  unfold file_read
  rw [if_neg (by omega), heof]
  simp only [Bool.false_eq_true, if_false, hchain]
  rw [disk_read_cluster f.volume chain f.file_offset ctx.hlen ctx.hspc hcl0]
  simp only []
  rw [heof] at hloop
  rw [hloop]
  refine ⟨_, rfl, ?_, ?_, ?_, rfl, rfl, rfl, ?_⟩
  · show s1.how_many_elements = _
    rw [inv1.cnt]
    omega
  · show s1.out = _
    rw [inv1.out]
    congr 1
    omega
  · show s1.end_of_file = _
    rw [heof1, heof]
    simp
  · show u32 s1.file_offset * cluster_bytes f.volume + u32 s1.cluster_offset = _ ∧
      u32 s1.cluster_offset ≤ cluster_bytes f.volume
    rw [hfo, hcofit]
    refine ⟨?_, inv1.co_le⟩
    rw [inv1.pos]
    omega

/-- A `file_read` of `n ≥ 1` elements from a cursor at the end of the file returns 0,
delivers nothing and leaves the handle as it was. -/
theorem file_read_at_end (f : file_t) (chain : clusters_chain_t) (size n : Nat)
    (hsz : 0 < size) (hn : 0 < n) (hchain : f.chain = some chain) (hsize : f.size < 2 ^ 32)
    (hpos : f.file_offset * cluster_bytes f.volume + f.cluster_offset = f.size) :
    ∃ r, file_read size n f = .ok r ∧ r.ret = 0 ∧ r.out = [] ∧ r.stream = f := by
  unfold file_read
  rw [if_neg (by omega)]
  by_cases heof : f.end_of_file = true
  · rw [if_pos heof]
    exact ⟨_, rfl, rfl, rfl, rfl⟩
  · rw [if_neg heof]
    simp only [hchain]
    cases hr : disk_read f.volume.disk (cluster_sector f.volume chain f.file_offset)
        f.volume.super.sectors_per_clusters with
    | none => exact ⟨_, rfl, rfl, rfl, rfl⟩
    | some buffer =>
      simp only []
      obtain ⟨m, rfl⟩ : ∃ m, n = m + 1 := ⟨n - 1, by omega⟩
      have e0 : f.file_offset * f.volume.super.sectors_per_clusters
          * f.volume.super.bytes_per_sector = f.file_offset * cluster_bytes f.volume := by
        unfold cluster_bytes; rw [Nat.mul_assoc]
      have c1 : u32 (f.file_offset * f.volume.super.sectors_per_clusters
          * f.volume.super.bytes_per_sector + f.cluster_offset) ≥ f.size := by
        rw [e0, hpos, u32_of_lt hsize]
      rw [file_read_loop]
      unfold file_read_step
      simp only []
      rw [if_pos c1]
      simp only []
      refine ⟨_, rfl, rfl, rfl, ?_⟩
      cases f
      cases hchain
      rfl

/-! ## Handles returned by `file_open` -/

theorem file_open_scan_ok (fuel : Nat) (pvolume : volume_t) (buffer file_name : List uint8_t)
    (f : file_t) (n : Nat) :
    ∀ i, file_open_scan fuel pvolume buffer file_name n i = .ok f →
      ∃ temp chain, f = file_of_entry pvolume temp chain := by
  induction n with
  | zero =>
    intro i h
    simp [file_open_scan] at h
  | succ n ih =>
    intro i h
    rw [file_open_scan] at h
    split at h
    · exact ih _ h
    · split at h
      · split at h
        · cases h
        · split at h
          · cases h
            exact ⟨_, _, rfl⟩
          · cases h
            exact ⟨_, _, rfl⟩
          · cases h
          · cases h
      · exact ih _ h

/-- A handle returned by `file_open` belongs to the volume, has a 32-bit size and a
cursor at offset 0 with `end_of_file` clear. -/
theorem file_open_fresh (fuel : Nat) (pvolume : volume_t) (file_name : List uint8_t)
    (f : file_t) (h : file_open fuel pvolume file_name = .ok f) :
    f.volume = pvolume ∧ f.size < 2 ^ 32 ∧ f.file_offset = 0 ∧ f.cluster_offset = 0 ∧
      f.end_of_file = false := by
  unfold file_open at h
  split at h
  · cases h
  · split at h
    · cases h
    · obtain ⟨temp, chain, rfl⟩ := file_open_scan_ok _ _ _ _ _ _ _ h
      exact ⟨rfl, le32_lt _ _, rfl, rfl, rfl⟩

/-! ## Round trip -/

theorem Layout.ctx {f : file_t} {chain : clusters_chain_t} (lay : Layout f.volume f.size chain)
    (hentry : f.file_offset * cluster_bytes f.volume + f.cluster_offset < f.size) :
    ReadCtx f chain :=
  ⟨lay.hbps, lay.hspc, lay.hlen, lay.hsize, lay.hcl, hentry⟩

theorem Layout.of_well_formed {f : file_t} (hwf : well_formed f) (hpos : 0 < f.size)
    (hsize : f.size < 2 ^ 32) :
    ∃ chain, f.chain = some chain ∧ Layout f.volume f.size chain := by
  obtain ⟨hbps, hspc, hlen, -, -, -, hch⟩ := hwf
  obtain ⟨chain, hc, hn, hcl⟩ := hch hpos
  refine ⟨chain, hc, hbps, hspc, hlen, hsize, ?_⟩
  intro k hk
  apply (hcl k _).1
  rw [hn]
  have hcb : 0 < cluster_bytes f.volume := by
    unfold cluster_bytes
    rw [hbps]
    omega
  apply Nat.lt_of_succ_le
  rw [Nat.le_div_iff_mul_le hcb, Nat.succ_mul]
  omega

theorem read_until_zero_from (ns : Nat → Nat) (hns : ∀ i, 1 ≤ ns i) (volume : volume_t)
    (size : Nat) (chain : clusters_chain_t) (lay : Layout volume size chain) (fuel : Nat) :
    ∀ (i : Nat) (f : file_t) (p : Nat), f.volume = volume → f.size = size →
      f.chain = some chain → at_offset f p → p ≤ size → (f.end_of_file = true → p = size) →
      size - p < fuel →
      read_until_zero ns fuel i f = some (file_bytes volume chain p (size - p)) := by
  induction fuel with
  | zero =>
    intro i f p _ _ _ _ _ _ hfuel
    omega
  | succ fuel ih =>
    intro i f p hv hs hc hat hp heofp hfuel
    subst hv
    subst hs
    have hni := hns i
    rw [read_until_zero]
    by_cases hend : p = f.size
    · obtain ⟨r, hr, hret, -, -⟩ :=
        file_read_at_end f chain 1 (ns i) (by decide) (by omega) hc lay.hsize
          (by rw [hat.1, hend])
      rw [hr]
      simp only [hret, if_true]
      rw [hend, Nat.sub_self]
      rfl
    · have hlt : p < f.size := by omega
      have heof : f.end_of_file = false := by
        cases h : f.end_of_file with
        | false => rfl
        | true => exact absurd (heofp h) hend
      obtain ⟨r, hr, hret, hout, heof1, hc1, hv1, hs1, hat1⟩ :=
        file_read_one f chain (ns i) p (by omega) heof hc
          (lay.ctx (by rw [hat.1]; exact hlt)) hat
      rw [hr]
      simp only []
      have hm : 1 ≤ min (ns i) (f.size - p) := by omega
      rw [if_neg (by omega)]
      have hrec := ih (i + 1) r.stream (p + min (ns i) (f.size - p)) hv1 hs1 (hc1.trans hc) hat1
        (by omega)
        (by
          intro h
          rw [heof1] at h
          simp only [decide_eq_true_eq] at h
          omega)
        (by omega)
      rw [hrec]
      simp only [Option.map_some']
      congr 1
      rw [hret, hout, List.take_of_length_le (by rw [file_bytes_length])]
      have e : f.size - p = min (ns i) (f.size - p) + (f.size - (p + min (ns i) (f.size - p))) := by
        omega
      conv_rhs => rw [e]
      rw [file_bytes_add]

/-- Round trip with elements of one byte on an opened file.  For a handle `f` that
`file_open` returned for a well-formed file of size `S > 0` (512-byte sectors, chain of `ceil(S / cluster_bytes)`
data clusters inside the image), calling `file_read(out, 1, ns i, f)` with any counts
`ns i ≥ 1` until a call returns 0 takes at most `S + 1` calls, and the concatenation of
the delivered bytes has exactly `S` bytes and is the file's contents along its chain. -/
theorem file_read_round_trip (fuel : Nat) (volume : volume_t) (file_name : List uint8_t)
    (f : file_t) (ns : Nat → Nat) (calls : Nat)
    (hopen : file_open fuel volume file_name = .ok f)
    (hsize : 0 < f.size) (hwf : well_formed f) (hns : ∀ i, 1 ≤ ns i)
    (hcalls : f.size < calls) :
    ∃ chain, f.chain = some chain ∧
      read_until_zero ns calls 0 f = some (file_bytes volume chain 0 f.size) ∧
      (file_bytes volume chain 0 f.size).length = f.size := by
  obtain ⟨hv, hs32, hfo, hco, heof⟩ := file_open_fresh fuel volume file_name f hopen
  obtain ⟨chain, hchain, lay⟩ := Layout.of_well_formed hwf hsize hs32
  have hat : at_offset f 0 := by
    unfold at_offset
    rw [hfo, hco]
    omega
  have h := read_until_zero_from ns hns f.volume f.size chain lay calls 0 f 0 rfl rfl hchain hat
    (Nat.zero_le _) (by rw [heof]; intro h; cases h) (by omega)
  rw [Nat.sub_zero, hv] at h
  exact ⟨chain, hchain, h, file_bytes_length _ _ _ _⟩

/-! ## Seek and read -/

theorem file_read_zero_count (size : Nat) (f : file_t) :
    file_read size 0 f = .ok { ret := 2 ^ 64 - 1, out := [], stream := f } := by
  unfold file_read
  rw [if_pos (Or.inr rfl)]

theorem mod_div_mul_eq (t cb : Nat) (hcb : 0 < cb) (hq : t / cb ≠ 0) :
    t % (t / cb * cb) = t % cb := by
  have h1 := Nat.div_add_mod t cb
  have h2 := Nat.mod_lt t hcb
  obtain ⟨q, hqd⟩ : ∃ q, q = t / cb := ⟨_, rfl⟩
  obtain ⟨r, hrd⟩ : ∃ r, r = t % cb := ⟨_, rfl⟩
  rw [← hqd] at h1 hq ⊢
  rw [← hrd] at h1 h2 ⊢
  have h3 : cb ≤ q * cb := Nat.le_mul_of_pos_left _ (Nat.pos_of_ne_zero hq)
  have h4 : cb * q = q * cb := Nat.mul_comm _ _
  have h5 : t = r + q * cb := by omega
  rw [h5, Nat.add_mod_right]
  exact Nat.mod_eq_of_lt (by omega)

/-- A call `file_seek(f, t, SEEK_SET)` with `0 ≤ t ≤ size < 2 ^ 31` returns 0 and leaves the
cursor at `(t div cluster_bytes, t mod cluster_bytes)`. -/
theorem file_seek_set (f : file_t) (t : Nat) (hcb : 0 < cluster_bytes f.volume)
    (hsize : f.size < 2 ^ 31) (ht : t ≤ f.size) :
    file_seek f (t : Int) SEEK_SET
      = .ok { ret := 0, errno := none
              stream := { f with
                file_offset := t / cluster_bytes f.volume
                cluster_offset := t % cluster_bytes f.volume } } := by
  have e2 : f.volume.super.sectors_per_clusters * f.volume.super.bytes_per_sector
      = cluster_bytes f.volume := rfl
  have hto : to_int32 f.size = (f.size : Int) := by
    unfold to_int32
    rw [if_pos (by omega)]
    omega
  have hof : ∀ x : Nat, x < 2 ^ 32 → of_int32 (x : Int) = x := by
    intro x hx
    unfold of_int32
    omega
  unfold file_seek
  simp only [e2]
  generalize cluster_bytes f.volume = cb at *
  have hq : Int.tdiv (t : Int) ((cb : Nat) : Int) = ((t / cb : Nat) : Int) := rfl
  have hqle : t / cb * cb ≤ t := Nat.div_mul_le_self _ _
  have hqlt : t / cb ≤ t := Nat.div_le_self _ _
  rw [if_pos True.intro, hto, if_neg (by omega), if_neg (by omega), hq, hof _ (by omega),
    hof _ (by omega)]
  by_cases hz : t / cb = 0
  · rw [hz]
    simp only [ne_eq, not_true_eq_false, if_false]
    have : t % cb = t := by
      apply Nat.mod_eq_of_lt
      exact (Nat.div_eq_zero_iff hcb).1 hz
    rw [this]
  · rw [if_pos hz]
    have hu : u32 (t / cb * cb) = t / cb * cb := u32_of_lt (by omega)
    rw [hu]
    have hne : ¬ t / cb * cb = 0 := by
      have h3 : cb ≤ t / cb * cb := Nat.le_mul_of_pos_left _ (Nat.pos_of_ne_zero hz)
      omega
    rw [if_neg hne, mod_div_mul_eq t cb hcb hz]

/-- C2: seek/read equivalence.  For a handle `f` freshly returned by `file_open` for a
well-formed file of size `S` and every `t` with `0 ≤ t ≤ S`:
`file_seek(f, t, SEEK_SET)` succeeds, and reading `S - t` one-byte elements after it
returns the same count and the same bytes as reading (and discarding) `t` one-byte
elements from the fresh handle and then reading `S - t`.  For `t < S` these are the
`S - t` file bytes from offset `t` on. -/
theorem file_seek_read_eq_skip_read (fuel : Nat) (volume : volume_t)
    (file_name : List uint8_t) (f : file_t) (t : Nat)
    (hopen : file_open fuel volume file_name = .ok f) (hwf : well_formed f)
    (ht : t ≤ f.size) :
    ∃ a ra b rb, file_seek f (t : Int) SEEK_SET = .ok a ∧ a.ret = 0 ∧
      file_read 1 (f.size - t) a.stream = .ok ra ∧
      file_read 1 t f = .ok b ∧ file_read 1 (f.size - t) b.stream = .ok rb ∧
      ra.ret = rb.ret ∧ ra.out = rb.out ∧
      (t < f.size → ∃ chain, f.chain = some chain ∧ ra.ret = f.size - t ∧
        ra.out = file_bytes volume chain t (f.size - t)) := by
  obtain ⟨hv, hs32, hfo, hco, heof⟩ := file_open_fresh fuel volume file_name f hopen
  subst hv
  have hcb : 0 < cluster_bytes f.volume := by
    unfold cluster_bytes
    rw [hwf.1]
    have := hwf.2.1
    omega
  have hseek := file_seek_set f t hcb hwf.2.2.2.1 ht
  have hat0 : at_offset f 0 := by
    unfold at_offset
    rw [hfo, hco]
    omega
  obtain ⟨fa, hfa⟩ : ∃ fa : file_t, fa = { f with
      file_offset := t / cluster_bytes f.volume,
      cluster_offset := t % cluster_bytes f.volume } := ⟨_, rfl⟩
  rw [← hfa] at hseek
  have hvA : fa.volume = f.volume := by rw [hfa]
  have hsA : fa.size = f.size := by rw [hfa]
  have hcA : fa.chain = f.chain := by rw [hfa]
  have heofA : fa.end_of_file = false := by rw [hfa]; exact heof
  have hatA : at_offset fa t := by
    unfold at_offset
    rw [hvA]
    have h1 : fa.file_offset = t / cluster_bytes f.volume := by rw [hfa]
    have h2 : fa.cluster_offset = t % cluster_bytes f.volume := by rw [hfa]
    rw [h1, h2]
    refine ⟨?_, Nat.le_of_lt (Nat.mod_lt t hcb)⟩
    rw [Nat.mul_comm]
    exact Nat.div_add_mod t _
  by_cases hlt : t < f.size
  · obtain ⟨chain, hchain, lay⟩ := Layout.of_well_formed hwf (by omega) hs32
    have layA : Layout fa.volume fa.size chain := by
      rw [hvA, hsA]
      exact lay
    obtain ⟨ra, hra, hretA, houtA, -⟩ :=
      file_read_one fa chain (fa.size - t) t (by rw [hsA]; omega) heofA (hcA.trans hchain)
        (layA.ctx (by rw [hatA.1, hsA]; exact hlt)) hatA
    rw [hsA] at hra hretA houtA
    rw [hvA] at houtA
    have hretA1 : ra.ret = f.size - t := by
      rw [hretA]
      exact Nat.min_self _
    have houtA1 : ra.out = file_bytes f.volume chain t (f.size - t) := by
      rw [houtA]
      congr 1
      exact Nat.min_self _
    by_cases ht0 : t = 0
    · subst ht0
      obtain ⟨rb, hrb, hretB, houtB, -⟩ :=
        file_read_one f chain (f.size - 0) 0 (by omega) heof hchain
          (lay.ctx (by rw [hat0.1]; omega)) hat0
      refine ⟨_, ra, _, rb, hseek, rfl, hra, file_read_zero_count 1 f, hrb, ?_, ?_, ?_⟩
      · rw [hretA, hretB]
      · rw [houtA, houtB]
      · intro _
        exact ⟨chain, hchain, hretA1, houtA1⟩
    · obtain ⟨b, hb, -, -, heofB, hcB, hvB, hsB, hatB⟩ :=
        file_read_one f chain t 0 (by omega) heof hchain
          (lay.ctx (by rw [hat0.1]; omega)) hat0
      have hmin : min t (f.size - 0) = t := by omega
      rw [hmin, Nat.zero_add] at hatB
      have heofB1 : b.stream.end_of_file = false := by
        rw [heofB]
        simp only [decide_eq_false_iff_not]
        omega
      have layB : Layout b.stream.volume b.stream.size chain := by
        rw [hvB, hsB]
        exact lay
      obtain ⟨rb, hrb, hretB, houtB, -⟩ :=
        file_read_one b.stream chain (b.stream.size - t) t (by rw [hsB]; omega) heofB1
          (hcB.trans hchain) (layB.ctx (by rw [hatB.1, hsB]; exact hlt)) hatB
      rw [hsB] at hrb hretB houtB
      rw [hvB] at houtB
      refine ⟨_, ra, b, rb, hseek, rfl, hra, hb, hrb, ?_, ?_, ?_⟩
      · rw [hretA, hretB]
      · rw [houtA, houtB]
      · intro _
        exact ⟨chain, hchain, hretA1, houtA1⟩
  · have hts : f.size - t = 0 := by omega
    have hb : ∃ b, file_read 1 t f = .ok b := by
      by_cases ht0 : t = 0
      · subst ht0
        exact ⟨_, file_read_zero_count 1 f⟩
      · obtain ⟨chain, hchain, lay⟩ := Layout.of_well_formed hwf (by omega) hs32
        obtain ⟨r, hr, -⟩ := file_read_one f chain t 0 (by omega) heof hchain
          (lay.ctx (by rw [hat0.1]; omega)) hat0
        exact ⟨r, hr⟩
    obtain ⟨b, hb⟩ := hb
    rw [hts]
    refine ⟨_, _, b, _, hseek, rfl, file_read_zero_count 1 _, hb, file_read_zero_count 1 _,
      rfl, rfl, ?_⟩
    intro h
    omega

/-! ## The sample image -/

theorem file_open_sample_big :
    file_open 10 sample_volume (bytes_of [66, 73, 71, 46, 66, 73, 78]) = .ok sample_big := by
  (set_option maxRecDepth 8000 in rfl)

theorem sample_big_well_formed : well_formed sample_big := by
  refine ⟨by decide!, by decide!, by decide!, by decide!, by decide!, by decide!, fun _ =>
    ⟨chain_of (fat_buffer sample_volume) 2 2, rfl, by decide!, ?_⟩⟩
  intro k hk
  have hk2 : k < 2 := hk
  interval_cases k
  · exact ⟨⟨by decide!, by decide!⟩, by decide!⟩
  · exact ⟨⟨by decide!, by decide!⟩, by decide!⟩

/-- Evaluation of the round trip on `sample_disk`: reading `HELLO.TXT` 5 bytes at a time
takes 4 calls (5, 5, 3 and 0 bytes) and delivers the 13 bytes `Hello, world!` stored in
cluster 4. -/
theorem sample_round_trip_eval :
    read_until_zero (fun _ => 5) 4 0 sample_hello
      = some (bytes_of [72, 101, 108, 108, 111, 44, 32, 119, 111, 114, 108, 100, 33]) := by
  (set_option maxRecDepth 8000 in rfl)

/-- The round trip of `BIG.BIN` (519 bytes in two clusters) on `sample_disk`, read 100 bytes
at a time. -/
theorem file_read_round_trip_witness :
    ∃ chain, sample_big.chain = some chain ∧
      read_until_zero (fun _ => 100) 520 0 sample_big
        = some (file_bytes sample_volume chain 0 sample_big.size) ∧
      (file_bytes sample_volume chain 0 sample_big.size).length = sample_big.size :=
  file_read_round_trip 10 sample_volume (bytes_of [66, 73, 71, 46, 66, 73, 78]) sample_big
    (fun _ => 100) 520 file_open_sample_big (by decide!) sample_big_well_formed
    (fun _ => (by decide : 1 ≤ 100)) (by decide!)

/-- Witness of C2: `BIG.BIN` on `sample_disk` with the seek target `t = 509`, three bytes
before the end of the first cluster. -/
theorem file_seek_read_eq_skip_read_witness :
    ∃ a ra b rb, file_seek sample_big ((509 : Nat) : Int) SEEK_SET = .ok a ∧ a.ret = 0 ∧
      file_read 1 (sample_big.size - 509) a.stream = .ok ra ∧
      file_read 1 509 sample_big = .ok b ∧
      file_read 1 (sample_big.size - 509) b.stream = .ok rb ∧
      ra.ret = rb.ret ∧ ra.out = rb.out ∧
      (509 < sample_big.size → ∃ chain, sample_big.chain = some chain ∧
        ra.ret = sample_big.size - 509 ∧
        ra.out = file_bytes sample_volume chain 509 (sample_big.size - 509)) :=
  file_seek_read_eq_skip_read 10 sample_volume (bytes_of [66, 73, 71, 46, 66, 73, 78])
    sample_big 509 file_open_sample_big sample_big_well_formed (by decide!)

/-- C10 (evaluation at the failing input): the root directory of `sample_disk` holds
`BIG.BIN` in slot 0 and `HELLO.TXT` in slot 1 (decoded names below) and nothing else.
`file_open` with the empty name returns a handle on `BIG.BIN`, and with the name `HEL`, a
proper prefix of `HELLO.TXT`, a handle on `HELLO.TXT`; neither call reports `ENOENT`. -/
theorem file_open_prefix_match :
    file_open_name (mk_entry name_BIG_BIN 0x20 2 519)
        = bytes_of [66, 73, 71, 46, 66, 73, 78, 0, 0, 0, 0, 0, 0, 0] ∧
      file_open_name (mk_entry name_HELLO_TXT 0x20 4 13)
        = bytes_of [72, 69, 76, 76, 79, 46, 84, 88, 84, 0, 0, 0, 0, 0] ∧
      ∃ volume f g, fat_open sample_disk 0 = .ok volume ∧
        file_open 10 volume [] = .ok f ∧
        f.filename = bytes_of [66, 73, 71, 32, 32, 32, 32, 32] ∧ f.size = 519 ∧
        file_open 10 volume (bytes_of [72, 69, 76]) = .ok g ∧
        g.filename = bytes_of [72, 69, 76, 76, 79, 32, 32, 32] ∧ g.size = 13 := by
  refine ⟨?_, ?_, sample_volume, sample_big,
    file_of_entry sample_volume (mk_entry name_HELLO_TXT 0x20 4 13)
      (some (chain_of (fat_buffer sample_volume) 4 1)),
    ?_, ?_, ?_, ?_, ?_, ?_, ?_⟩ <;>
    (set_option maxRecDepth 8000 in rfl)

/-- C1 (evaluation at the failing input): on `digit_disk`, a volume with 512-byte sectors,
the root directory holds in slot 0 the file whose 8.3 name is `FILE1.TXT`, of 13 bytes,
with first cluster 2 and `FAT[2] = 0xFFFF`, so that its chain has the one cluster
`ceil(13 / 512)` asks for, a data cluster inside the image.  `file_open` decodes the name
of the entry as `FILE.TXT` (the digit is overwritten by the dot) and, for the name
`FILE1.TXT`, returns NULL with `ENOENT` whatever the fuel: no handle is returned and no
byte of the file can be read. -/
theorem file_open_digit_name_not_found :
    fat_open digit_disk 0 = .ok digit_volume ∧
      digit_volume.super.bytes_per_sector = 512 ∧
      bytes_at (disk_bytes digit_disk 2 1) (0 * 32) 32 = mk_entry name_FILE1_TXT 0x20 2 13 ∧
      reference_name (mk_entry name_FILE1_TXT 0x20 2 13)
        = bytes_of [70, 73, 76, 69, 49, 46, 84, 88, 84] ∧
      le32 (mk_entry name_FILE1_TXT 0x20 2 13) 28 = 13 ∧
      le16 (mk_entry name_FILE1_TXT 0x20 2 13) 26 = 2 ∧
      fat_entry (fat_buffer digit_volume) 2 = 0xFFFF ∧
      cluster_in_image digit_volume 2 ∧
      file_open_name (mk_entry name_FILE1_TXT 0x20 2 13)
        = bytes_of [70, 73, 76, 69, 46, 84, 88, 84, 0, 0, 0, 0, 0, 0] ∧
      ∀ fuel, file_open fuel digit_volume (bytes_of [70, 73, 76, 69, 49, 46, 84, 88, 84])
        = .null (some .ENOENT) := by
  refine ⟨?_, ?_, ?_, ?_, ?_, ?_, ?_, by unfold cluster_in_image; decide!, ?_, fun fuel => ?_⟩ <;>
    (set_option maxRecDepth 8000 in rfl)

/-- C11 (evaluation at the failing inputs): the root directory of `prefix_disk` holds, in
this order, the file `SUBDIRAB` (attribute `0x20`, 5 bytes), the directory `SUBDIR`
(attribute `0x10`) and the file `SUB` (attribute `0x20`, 7 bytes); these are the 8.3 names
of the three entries.  The first, and only, entry named `SUBDIR` is the directory, and
`file_open` for `SUBDIR` returns a handle on `SUBDIRAB` instead of NULL with `EISDIR`.  The
first, and only, entry named `SUB` is the file of 7 bytes with neither bit set, and
`file_open` for `SUB` returns the handle on `SUBDIRAB`, whose size is 5. -/
theorem file_open_first_entry_by_prefix :
    fat_open prefix_disk 0 = .ok prefix_volume ∧
      bytes_at (disk_bytes prefix_disk 2 1) (0 * 32) 32 = mk_entry name_SUBDIRAB 0x20 2 5 ∧
      bytes_at (disk_bytes prefix_disk 2 1) (1 * 32) 32 = mk_entry name_SUBDIR 0x10 3 0 ∧
      bytes_at (disk_bytes prefix_disk 2 1) (2 * 32) 32 = mk_entry name_SUB 0x20 4 7 ∧
      reference_name (mk_entry name_SUBDIRAB 0x20 2 5)
        = bytes_of [83, 85, 66, 68, 73, 82, 65, 66] ∧
      reference_name (mk_entry name_SUBDIR 0x10 3 0) = bytes_of [83, 85, 66, 68, 73, 82] ∧
      reference_name (mk_entry name_SUB 0x20 4 7) = bytes_of [83, 85, 66] ∧
      le32 (mk_entry name_SUB 0x20 4 7) 28 = 7 ∧
      file_open 10 prefix_volume (bytes_of [83, 85, 66, 68, 73, 82]) = .ok prefix_subdirab ∧
      file_open 10 prefix_volume (bytes_of [83, 85, 66]) = .ok prefix_subdirab ∧
      prefix_subdirab.filename = bytes_of [83, 85, 66, 68, 73, 82, 65, 66] ∧
      prefix_subdirab.size = 5 := by
  refine ⟨?_, ?_, ?_, ?_, ?_, ?_, ?_, ?_, ?_, ?_, ?_, ?_⟩ <;>
    (set_option maxRecDepth 8000 in rfl)

/-! ## Root directory of `listing_disk` -/

theorem bytes_at_getD (buffer : List uint8_t) (off n k : Nat) (h : k < n) :
    (bytes_at buffer off n).getD k 0 = buffer.getD (off + k) 0 := by
  unfold bytes_at
  rw [List.getD_eq_getElem _ _ (by simp; exact h), List.getElem_map, List.getElem_range]

theorem listing_root_read :
    disk_read listing_volume.disk (fat_area_end listing_volume.super)
      listing_volume.root_dir_sectors = some (disk_bytes listing_disk 2 1) := by
  (set_option maxRecDepth 8000 in rfl)

theorem listing_root_reads_in_bounds : root_reads_in_bounds listing_volume := by
  unfold root_reads_in_bounds
  decide!

/-! ## Directory cursor -/

/-- The loop of `dir_read` passes the skipped slots and yields the first slot that is not
skipped. -/
theorem dir_read_loop_yield (buffer : List uint8_t) (pdir : dir_t) (pentry : dir_entry_t)
    (i : Nat) (hi : ¬ slot_skipped buffer i) (n : Nat) :
    ∀ off, off ≤ i → i < off + n → (∀ j, off ≤ j → j < i → slot_skipped buffer j) →
      dir_read_loop buffer pdir pentry n off
        = { ret := 0, errno := none
            pdir := { pdir with dir_offset := i + 1 }
            pentry := { pentry with
              name := strcpy pentry.name (dir_read_name (bytes_at buffer (i * 32) 32)) } } := by
  induction n with
  | zero =>
    intro off h1 h2 _
    omega
  | succ n ih =>
    intro off h1 h2 hskip
    rw [dir_read_loop]
    by_cases he : off = i
    · subst he
      rw [if_neg hi]
    · rw [if_pos (hskip off (Nat.le_refl off) (by omega))]
      exact ih (off + 1) (by omega) (by omega) (fun j hj hji => hskip j (by omega) hji)

/-- The loop of `dir_read` over skipped slots only ends with 1 and the cursor reset. -/
theorem dir_read_loop_end (buffer : List uint8_t) (pdir : dir_t) (pentry : dir_entry_t)
    (n : Nat) :
    ∀ off, (∀ j, off ≤ j → j < off + n → slot_skipped buffer j) →
      dir_read_loop buffer pdir pentry n off
        = { ret := 1, errno := none, pdir := { pdir with dir_offset := 0 }, pentry := pentry } := by
  induction n with
  | zero =>
    intro off _
    rfl
  | succ n ih =>
    intro off hskip
    rw [dir_read_loop, if_pos (hskip off (Nat.le_refl off) (by omega))]
    exact ih (off + 1) (fun j hj hjn => hskip j (by omega) (by omega))

/-- The loop of `dir_read` leaves the cursor at most at the slot count. -/
theorem dir_read_loop_offset_le (buffer : List uint8_t) (pdir : dir_t) (pentry : dir_entry_t)
    (n : Nat) :
    ∀ off, (dir_read_loop buffer pdir pentry n off).pdir.dir_offset ≤ off + n := by
  induction n with
  | zero =>
    intro off
    exact Nat.zero_le _
  | succ n ih =>
    intro off
    rw [dir_read_loop]
    split
    · have := ih (off + 1)
      omega
    · show off + 1 ≤ off + (n + 1)
      omega

/-- The cursor of `dir_read` on a handle whose `volume` member is assigned, on a volume
whose root directory fits its buffer and is read into `buffer`, with
`0 ≤ dir_offset ≤ maximum_number_of_files`: (1) if slot `i` is the least slot from
`dir_offset` on, below `maximum_number_of_files`, whose first name byte is outside
`{0x00, 0xE5, 0x2E}`, `dir_read` returns 0, stores the decoded name of slot `i` in the
caller's record and leaves `dir_offset = i + 1`; (2) if there is no such slot, `dir_read`
returns 1 and resets `dir_offset` to 0; (3) in every case `dir_offset` stays within
`[0, maximum_number_of_files]`. -/
theorem dir_read_cursor (pdir : dir_t) (pentry : dir_entry_t) (volume : volume_t)
    (buffer : List uint8_t) (hvol : pdir.volume = some volume)
    (hbuf : disk_read volume.disk (fat_area_end volume.super) volume.root_dir_sectors
      = some buffer)
    (hroot : root_reads_in_bounds volume)
    (hoff : pdir.dir_offset ≤ volume.super.maximum_number_of_files) :
    (∀ i, pdir.dir_offset ≤ i → i < volume.super.maximum_number_of_files →
      ¬ slot_skipped buffer i → (∀ j, pdir.dir_offset ≤ j → j < i → slot_skipped buffer j) →
      ∃ r, dir_read pdir pentry = .ok r ∧ r.ret = 0 ∧
        r.pentry.name = strcpy pentry.name (dir_read_name (bytes_at buffer (i * 32) 32)) ∧
        r.pdir.dir_offset = i + 1) ∧
    ((∀ i, pdir.dir_offset ≤ i → i < volume.super.maximum_number_of_files →
        slot_skipped buffer i) →
      ∃ r, dir_read pdir pentry = .ok r ∧ r.ret = 1 ∧ r.pdir.dir_offset = 0) ∧
    (∃ r, dir_read pdir pentry = .ok r ∧
      r.pdir.dir_offset ≤ volume.super.maximum_number_of_files) := by
  have hrd : dir_read pdir pentry
      = .ok (dir_read_loop buffer pdir pentry
          (volume.super.maximum_number_of_files - pdir.dir_offset) pdir.dir_offset) := by
    have hfit : ¬ volume.root_dir_capacity * volume.super.bytes_per_sector
        < (disk_bytes volume.disk (fat_area_end volume.super) volume.root_dir_sectors).length := by
      rw [disk_bytes_length]
      have := hroot.1
      omega
    unfold dir_read
    rw [hvol]
    simp only []
    rw [if_neg hfit, hbuf]
  refine ⟨?_, ?_, ?_⟩
  · intro i hi1 hi2 hns hskip
    refine ⟨_, hrd, ?_⟩
    rw [dir_read_loop_yield buffer pdir pentry i hns _ pdir.dir_offset hi1 (by omega) hskip]
    exact ⟨rfl, rfl, rfl⟩
  · intro hskip
    refine ⟨_, hrd, ?_⟩
    rw [dir_read_loop_end buffer pdir pentry _ pdir.dir_offset
      (fun j hj hjn => hskip j hj (by omega))]
    exact ⟨rfl, rfl⟩
  · refine ⟨_, hrd, ?_⟩
    have := dir_read_loop_offset_le buffer pdir pentry
      (volume.super.maximum_number_of_files - pdir.dir_offset) pdir.dir_offset
    omega

/-- On `listing_disk` (16 slots, slots 0 to 4 in use), `dir_read` on `listing_dir` with the
cursor at slot 2 yields slot 2 and moves the cursor to 3; with the cursor at slot 5 it
returns 1 and resets the cursor. -/
theorem dir_read_cursor_witness :
    (∃ r, dir_read (listing_dir 2) blank_entry = .ok r ∧ r.ret = 0 ∧
        r.pentry.name = strcpy blank_entry.name
          (dir_read_name (bytes_at (disk_bytes listing_disk 2 1) (2 * 32) 32)) ∧
        r.pdir.dir_offset = 2 + 1) ∧
      (∃ r, dir_read (listing_dir 5) blank_entry = .ok r ∧ r.ret = 1 ∧ r.pdir.dir_offset = 0) :=
  ⟨(dir_read_cursor (listing_dir 2) blank_entry listing_volume (disk_bytes listing_disk 2 1)
      rfl listing_root_read listing_root_reads_in_bounds (by decide!)).1 2 (by decide)
      (by decide!) (by decide!) (by intro j h1 h2; exact absurd h2 (Nat.not_lt.2 h1)),
   (dir_read_cursor (listing_dir 5) blank_entry listing_volume (disk_bytes listing_disk 2 1)
      rfl listing_root_read listing_root_reads_in_bounds (by decide!)).2.1 (by
        have h : ∀ i, i < 16 → 5 ≤ i → slot_skipped (disk_bytes listing_disk 2 1) i := by
          decide!
        intro i h1 h2
        exact h i h2 h1)⟩

/-- C14: `dir_open` stores `disk` and `dir_offset = 0` in the handle and never assigns its
`volume` member (lines 451-453), which `dir_read` dereferences at line 468: on every handle
that `dir_open` returns, with `dir_offset = 0` within `[0, maximum_number_of_files]`,
`dir_read` traps, whatever the root directory holds. -/
theorem dir_read_on_dir_open_handle (pvolume : volume_t) (dir_path : List uint8_t) (d : dir_t)
    (pentry : dir_entry_t) (h : dir_open pvolume dir_path = .ok d) :
    d.volume = none ∧ d.disk = pvolume.disk ∧ d.dir_offset = 0 ∧ dir_read d pentry = .fault := by
  unfold dir_open at h
  split_ifs at h
  cases h
  exact ⟨rfl, rfl, rfl, rfl⟩

/-- C14 (evaluation at the failing input): on `listing_disk` (16 slots), slot 0 holds an
entry whose first name byte is `H`, outside `{0x00, 0xE5, 0x2E}`; `dir_open` for the path
of one backslash returns a handle with `dir_offset = 0`, and `dir_read` on that handle
traps instead of returning 0 with `dir_offset = 1`. -/
theorem dir_read_on_dir_open_handle_witness :
    listing_volume.super.maximum_number_of_files = 16 ∧
      ¬ slot_skipped (disk_bytes listing_disk 2 1) 0 ∧
      dir_open listing_volume (bytes_of [92]) = .ok listing_dir_opened ∧
      dir_read listing_dir_opened blank_entry = .fault :=
  ⟨by decide!, by decide!, by (set_option maxRecDepth 8000 in rfl),
    (dir_read_on_dir_open_handle listing_volume (bytes_of [92]) listing_dir_opened blank_entry
      (by (set_option maxRecDepth 8000 in rfl))).2.2.2⟩

/-- What `dir_read` leaves in the caller's record: `size` and the five flags are the
caller's; only `name` is written. -/
theorem dir_read_loop_keeps_fields (buffer : List uint8_t) (pdir : dir_t) (pentry : dir_entry_t)
    (n : Nat) :
    ∀ off, (dir_read_loop buffer pdir pentry n off).pentry.size = pentry.size ∧
      (dir_read_loop buffer pdir pentry n off).pentry.is_archived = pentry.is_archived ∧
      (dir_read_loop buffer pdir pentry n off).pentry.is_readonly = pentry.is_readonly ∧
      (dir_read_loop buffer pdir pentry n off).pentry.is_system = pentry.is_system ∧
      (dir_read_loop buffer pdir pentry n off).pentry.is_hidden = pentry.is_hidden ∧
      (dir_read_loop buffer pdir pentry n off).pentry.is_directory = pentry.is_directory := by
  induction n with
  | zero =>
    intro off
    exact ⟨rfl, rfl, rfl, rfl, rfl, rfl⟩
  | succ n ih =>
    intro off
    rw [dir_read_loop]
    split
    · exact ih (off + 1)
    · exact ⟨rfl, rfl, rfl, rfl, rfl, rfl⟩

/-! ## Evaluations on `listing_disk` -/

theorem fat_open_listing_disk : fat_open listing_disk 0 = .ok listing_volume := by
  (set_option maxRecDepth 8000 in rfl)

theorem file_open_listing_big :
    file_open 10 listing_volume (bytes_of [66, 73, 71, 46, 66, 73, 78]) = .ok listing_big := by
  (set_option maxRecDepth 8000 in rfl)

/-- What `file_seek` does to `end_of_file`: nothing. -/
theorem file_seek_end_of_file (f : file_t) (offset : Int) (whence : Nat) (r : seek_result)
    (h : file_seek f offset whence = .ok r) : r.stream.end_of_file = f.end_of_file := by
  unfold file_seek at h
  simp only [] at h
  split_ifs at h <;> (cases h; rfl)

/-- C12 (evaluation at the failing input): slot 4 of the root directory of `listing_disk`
holds the entry `FILE1   TXT`.  `dir_read` returns 0 with the name `FILE.TXT` (and its
NUL) in the caller's record: the digit is overwritten by the dot.  The reference 8.3
decoding of the entry is `FILE1.TXT`. -/
theorem dir_read_name_digit :
    dir_read (listing_dir 4) blank_entry
        = .ok { ret := 0, errno := none, pdir := listing_dir 5,
                pentry := { blank_entry with
                  name := bytes_of [70, 73, 76, 69, 46, 84, 88, 84] ++ List.replicate 12 0 } } ∧
      bytes_at (disk_bytes listing_disk 2 1) (4 * 32) 32 = mk_entry name_FILE1_TXT 0x20 4 13 ∧
      reference_name (mk_entry name_FILE1_TXT 0x20 4 13)
        = bytes_of [70, 73, 76, 69, 49, 46, 84, 88, 84] := by
  refine ⟨?_, ?_, ?_⟩ <;> (set_option maxRecDepth 8000 in rfl)

/-- C13 (evaluation at the failing input): on `listing_disk`, `dir_read` at slot 1
(`BIG.BIN`, 519 bytes, attribute `0x20`) and at slot 3 (`SUBDIR`, attribute `0x10`)
returns 0 and writes the name only: `size` and the flags of the caller's record stay as
they were (all 0 in `blank_entry`), so `size` is not 519 and `is_archived` and
`is_directory` are not 1. -/
theorem dir_read_leaves_size_and_flags :
    dir_read (listing_dir 1) blank_entry
        = .ok { ret := 0, errno := none, pdir := listing_dir 2,
                pentry := { blank_entry with
                  name := bytes_of [66, 73, 71, 46, 66, 73, 78] ++ List.replicate 13 0 } } ∧
      dir_read (listing_dir 3) blank_entry
        = .ok { ret := 0, errno := none, pdir := listing_dir 4,
                pentry := { blank_entry with
                  name := bytes_of [83, 85, 66, 68, 73, 82] ++ List.replicate 14 0 } } ∧
      bytes_at (disk_bytes listing_disk 2 1) (1 * 32) 32 = mk_entry name_BIG_BIN 0x20 2 519 ∧
      bytes_at (disk_bytes listing_disk 2 1) (3 * 32) 32 = mk_entry name_SUBDIR 0x10 5 0 := by
  refine ⟨?_, ?_, ?_, ?_⟩ <;> (set_option maxRecDepth 8000 in rfl)

/-- C15 (evaluation at the failing inputs): on the fresh handle of `BIG.BIN` (519 bytes,
cursor 0) of `listing_disk`, `file_seek(f, -1, SEEK_SET)` (target `-1`) returns 0 and
stores `cluster_offset = 0xFFFFFFFF`; `file_seek(f, 0, SEEK_CUR)` (target 0) returns `-1`
with `ENXIO`; `file_seek(f, 5, SEEK_END)` (target 524) returns 0 with the cursor at
`(1, 12)`. -/
theorem file_seek_range_checks :
    file_seek listing_big (-1) SEEK_SET
        = .ok { ret := 0, errno := none,
                stream := { listing_big with file_offset := 0, cluster_offset := 0xFFFFFFFF } } ∧
      file_seek listing_big 0 SEEK_CUR
        = .ok { ret := -1, errno := some ENXIO, stream := listing_big } ∧
      file_seek listing_big 5 SEEK_END
        = .ok { ret := 0, errno := none,
                stream := { listing_big with file_offset := 1, cluster_offset := 12 } } := by
  refine ⟨?_, ?_, ?_⟩ <;>
    (set_option maxRecDepth 8000 in rfl)

/-- C16 (evaluation at the failing inputs): on the fresh handle of `BIG.BIN` (519 bytes,
clusters of 512 bytes) of `listing_disk`, `file_seek(f, -10, SEEK_END)` (target 509) and
`file_seek(f, 5, SEEK_CUR)` (target 5) compute `file_offset = 0` and then take a remainder
modulo `file_offset * cluster_bytes = 0`: both calls trap. -/
theorem file_seek_first_cluster_traps :
    file_seek listing_big (-10) SEEK_END = .fault ∧
      file_seek listing_big 5 SEEK_CUR = .fault := by
  refine ⟨?_, ?_⟩ <;>
    (set_option maxRecDepth 8000 in rfl)

/-- C17 (evaluation at the failing input): on `listing_disk`, `file_open` returns the
handle `listing_hello` for `HELLO.TXT` (13 bytes); `file_read(out, 1, 20, f)` returns 13
and sets `end_of_file`; `file_seek(f, 0, SEEK_SET)` then returns 0 with the cursor at
`(0, 0)` and leaves `end_of_file` set, and the same `file_read` returns 0 with no output. -/
theorem file_seek_keeps_end_of_file :
    file_open 10 listing_volume (bytes_of [72, 69, 76, 76, 79, 46, 84, 88, 84])
        = .ok listing_hello ∧
      file_read 1 20 listing_hello
        = .ok { ret := 13,
                out := bytes_of [72, 101, 108, 108, 111, 44, 32, 119, 111, 114, 108, 100, 33],
                stream := { listing_hello with
                  file_offset := 0, cluster_offset := 13, end_of_file := true } } ∧
      file_seek { listing_hello with file_offset := 0, cluster_offset := 13, end_of_file := true }
          0 SEEK_SET
        = .ok { ret := 0, errno := none,
                stream := { listing_hello with
                  file_offset := 0, cluster_offset := 0, end_of_file := true } } ∧
      file_read 1 20
          { listing_hello with file_offset := 0, cluster_offset := 0, end_of_file := true }
        = .ok { ret := 0, out := [],
                stream := { listing_hello with
                  file_offset := 0, cluster_offset := 0, end_of_file := true } } := by
  refine ⟨?_, ?_, ?_, ?_⟩ <;> (set_option maxRecDepth 8000 in rfl)

/-- C18 (evaluation at the failing input): on `listing_disk`, `file_open` for `EMPTY`
(0 bytes, attribute `0x20`) returns a handle whose `chain` is NULL, and the first
`file_read(out, 1, 1, f)` dereferences that chain at line 285 before any test of the
size: the call traps instead of returning 0. -/
theorem file_read_empty_file_traps :
    file_open 10 listing_volume (bytes_of [69, 77, 80, 84, 89]) = .ok listing_empty ∧
      listing_empty.size = 0 ∧ listing_empty.chain = none ∧
      listing_empty.end_of_file = false ∧ file_read 1 1 listing_empty = .fault := by
  refine ⟨?_, ?_, ?_, ?_, ?_⟩ <;>
    (set_option maxRecDepth 8000 in rfl)

/-- C19 (evaluation at the failing input): on `listing_disk`, after
`file_seek(f, 505, SEEK_SET)` on the fresh handle of `BIG.BIN` (519 bytes, clusters of 512
bytes), `file_read(out, 20, 1, f)` finds `r = 14` bytes left, of which 7 lie in the next
cluster.  The call returns 0 and sets `end_of_file`, but copies the 14 bytes from offset
505 of the 512-byte scratch buffer of the first cluster, without fetching the next
cluster: the cursor ends at `(0, 519)`, and the 14 bytes stored (7 file bytes and what lies
behind the scratch buffer, zeros in this embedding) are not the file bytes `[505, 519)`,
which end with the first 7 bytes `100, ..., 106` of the next cluster. -/
theorem file_read_tail_across_clusters :
    file_seek listing_big 505 SEEK_SET
        = .ok { ret := 0, errno := none,
                stream := { listing_big with file_offset := 0, cluster_offset := 505 } } ∧
      file_read 20 1 { listing_big with file_offset := 0, cluster_offset := 505 }
        = .ok { ret := 0, out := ramp 505 7 ++ List.replicate 7 0,
                stream := { listing_big with
                  file_offset := 0, cluster_offset := 519, end_of_file := true } } ∧
      file_bytes listing_volume (chain_of (fat_buffer listing_volume) 2 2) 505 14
        = ramp 505 7 ++ ramp 100 7 ∧
      ramp 505 7 ++ List.replicate 7 0 ≠ ramp 505 7 ++ ramp 100 7 := by
  refine ⟨?_, ?_, ?_, by decide!⟩ <;> (set_option maxRecDepth 8000 in rfl)

/-- C20 (evaluation at the failing input): on `listing_disk`, after
`file_seek(f, 200, SEEK_SET)` on the fresh handle of `BIG.BIN` (519 bytes, clusters of 512
bytes), `file_read(out, 315, 1, f)` reads one element of 315 bytes that straddles the
cluster boundary (`200 + 315 ≤ 519`).  The `uint8_t how_much_to_copy` holds
`312 mod 256 = 56`: the call returns 1, but stores the 56 bytes `200, ..., 255` of the
first cluster followed by the first 259 bytes `100, 101, ...` of the second cluster, so
that byte 56 of the output is the file byte at offset 512 and not the one at offset 256,
and the cursor ends at `(1, 259)`, that is at logical offset 771 instead of 515. -/
theorem file_read_straddle_truncated :
    file_seek listing_big 200 SEEK_SET
        = .ok { ret := 0, errno := none,
                stream := { listing_big with file_offset := 0, cluster_offset := 200 } } ∧
      file_read 315 1 { listing_big with file_offset := 0, cluster_offset := 200 }
        = .ok { ret := 1, out := ramp 200 56 ++ ramp 100 259,
                stream := { listing_big with file_offset := 1, cluster_offset := 259 } } ∧
      (ramp 200 56 ++ ramp 100 259).getD 56 0 = 100 ∧
      file_byte listing_volume (chain_of (fat_buffer listing_volume) 2 2) 512 = 100 ∧
      file_byte listing_volume (chain_of (fat_buffer listing_volume) 2 2) (200 + 56) = 0 := by
  refine ⟨?_, ?_, ?_, ?_, ?_⟩ <;> (set_option maxRecDepth 8000 in rfl)

/-! ## Read failure inside `file_read` -/

/-- C21 (evaluation at the failing input): on `short_disk`, `fat_open` and `file_open`
return the handle of `BIG.BIN` (1000 bytes, chain `2, 3`, clusters of 512 bytes), and the
sector of its second cluster cannot be read.  After `file_seek(f, 500, SEEK_SET)`,
`file_read(out, 6, 3, f)` copies two complete elements, fails to read the second cluster
at the third one and returns 3; `file_read(out, 8, 3, f)` copies one complete element,
fails to read the second cluster inside the second one and returns 3.  Both calls return
`nmemb`, not the count of complete elements, and leave the cursor where it was. -/
theorem file_read_mid_failure_returns_nmemb :
    fat_open short_disk 0 = .ok short_volume ∧
      file_open 10 short_volume (bytes_of [66, 73, 71, 46, 66, 73, 78]) = .ok short_big ∧
      file_seek short_big 500 SEEK_SET
        = .ok { ret := 0, errno := none,
                stream := { short_big with file_offset := 0, cluster_offset := 500 } } ∧
      disk_read short_volume.disk
          (cluster_sector short_volume (chain_of (fat_buffer short_volume) 2 2) 1)
          short_volume.super.sectors_per_clusters = none ∧
      file_read 6 3 { short_big with file_offset := 0, cluster_offset := 500 }
        = .ok { ret := 3, out := ramp 500 12,
                stream := { short_big with file_offset := 0, cluster_offset := 500 } } ∧
      file_read 8 3 { short_big with file_offset := 0, cluster_offset := 500 }
        = .ok { ret := 3, out := ramp 500 12,
                stream := { short_big with file_offset := 0, cluster_offset := 500 } } := by
  refine ⟨?_, ?_, ?_, ?_, ?_, ?_⟩ <;> (set_option maxRecDepth 8000 in rfl)

/-! ## `SEEK_SET` arithmetic -/

/-- C22: for `whence = SEEK_SET` and every offset `t` with `0 ≤ t ≤ size`, `size < 2 ^ 31`
and `cluster_bytes > 0`, the expressions of `file_seek` compute the quotient and the
remainder of `t` by `cluster_bytes`: the `int` quotient stored in `file_offset` is
`t div cluster_bytes`; when it is not 0, the remainder of `t` modulo
`file_offset * cluster_bytes` is `t mod cluster_bytes`; when it is 0, `t` itself is
`t mod cluster_bytes`; and the call returns 0 with the cursor at
`(t div cluster_bytes, t mod cluster_bytes)`. -/
theorem file_seek_set_divmod (f : file_t) (t : Nat) (hcb : 0 < cluster_bytes f.volume)
    (hsize : f.size < 2 ^ 31) (ht : t ≤ f.size) :
    of_int32 (Int.tdiv (t : Int) ((cluster_bytes f.volume : Nat) : Int))
        = t / cluster_bytes f.volume ∧
      (t / cluster_bytes f.volume ≠ 0 →
        of_int32 (t : Int) % u32 (t / cluster_bytes f.volume * cluster_bytes f.volume)
          = t % cluster_bytes f.volume) ∧
      (t / cluster_bytes f.volume = 0 → of_int32 (t : Int) = t % cluster_bytes f.volume) ∧
      file_seek f (t : Int) SEEK_SET
        = .ok { ret := 0, errno := none
                stream := { f with
                  file_offset := t / cluster_bytes f.volume
                  cluster_offset := t % cluster_bytes f.volume } } := by
  have hof : ∀ x : Nat, x < 2 ^ 32 → of_int32 (x : Int) = x := by
    intro x hx
    unfold of_int32
    omega
  have hqlt : t / cluster_bytes f.volume ≤ t := Nat.div_le_self _ _
  have hqle : t / cluster_bytes f.volume * cluster_bytes f.volume ≤ t := Nat.div_mul_le_self _ _
  have hq : Int.tdiv (t : Int) ((cluster_bytes f.volume : Nat) : Int)
      = ((t / cluster_bytes f.volume : Nat) : Int) := rfl
  refine ⟨?_, ?_, ?_, file_seek_set f t hcb hsize ht⟩
  · rw [hq, hof _ (by omega)]
  · intro hz
    rw [hof _ (by omega), u32_of_lt (by omega), mod_div_mul_eq t _ hcb hz]
  · intro hz
    rw [hof _ (by omega)]
    exact (Nat.mod_eq_of_lt ((Nat.div_eq_zero_iff hcb).1 hz)).symm

/-- Witness of C22: on a handle of `listing_volume` (clusters of 512 bytes) with size
2000, `file_seek(f, 1500, SEEK_SET)` leaves the cursor at `(2, 476)`. -/
theorem file_seek_set_divmod_witness :
    file_seek { listing_big with size := 2000 } ((1500 : Nat) : Int) SEEK_SET
      = .ok { ret := 0, errno := none
              stream := { listing_big with
                size := 2000, file_offset := 2, cluster_offset := 476 } } := by
  have hcb : cluster_bytes listing_volume = 512 := by decide!
  have h := (file_seek_set_divmod { listing_big with size := 2000 } 1500
    (by rw [show ({ listing_big with size := 2000 } : file_t).volume = listing_volume from rfl,
      hcb]; decide)
    (by show (2000 : Nat) < 2 ^ 31; norm_num) (by show (1500 : Nat) ≤ 2000; decide)).2.2.2
  rw [show ({ listing_big with size := 2000 } : file_t).volume = listing_volume from rfl,
    hcb] at h
  exact h

/-! ## Names made of letters (`dir_read`) -/

theorem isalpha_space : isalpha 32 = false := by decide

theorem isalpha_nul : isalpha 0 = false := by decide

theorem isalpha_ne_zero (c : uint8_t) (h : isalpha c = true) : c ≠ 0 := by
  intro h0
  rw [h0, isalpha_nul] at h
  cases h

theorem getD_set_ne (l : List uint8_t) (i j : Nat) (v : uint8_t) (h : i ≠ j) :
    (l.set i v).getD j 0 = l.getD j 0 := by
  simp [List.getD_eq_getElem?_getD, List.getElem?_set_ne h]

/-- A pass of the decode loop of `dir_read` over a letter, before the dot. -/
theorem dir_decode_loop_alpha (ext name : List uint8_t) (n j d : Nat)
    (h : isalpha (name.getD j 0) = true) :
    dir_decode_loop ext (n + 1) j (-1) d name
      = dir_decode_loop ext n (j + 1) (-1) (u8 (d + 1)) name := by
  rw [dir_decode_loop]
  simp only [h, if_true]
  rw [if_neg (by decide)]

/-- A pass of the decode loop over the first byte that is not a letter: the dot. -/
theorem dir_decode_loop_dot (ext name : List uint8_t) (n j d : Nat)
    (h : isalpha (name.getD j 0) = false) :
    dir_decode_loop ext (n + 1) j (-1) d name
      = dir_decode_loop ext n (j + 1) 0 d (name.set j 46) := by
  rw [dir_decode_loop]
  simp only [h, Bool.false_eq_true, if_false, if_true]
  rw [if_neg (by decide)]
  rfl

/-- A pass of the decode loop over a non-letter after the dot, `counter` being 0 or 1. -/
theorem dir_decode_loop_ext (ext name : List uint8_t) (n j d : Nat) (c : Nat) (hc : c < 2)
    (h : isalpha (name.getD j 0) = false) :
    dir_decode_loop ext (n + 1) j (c : Int) d name
      = dir_decode_loop ext n (j + 1) ((c + 1 : Nat) : Int) d (name.set j (ext.getD c 0)) := by
  rw [dir_decode_loop]
  simp only [h, Bool.false_eq_true, if_false]
  rw [if_neg (by omega), if_neg (by omega)]
  rfl

/-- The pass of the decode loop that stores the third extension byte ends the loop. -/
theorem dir_decode_loop_last (ext name : List uint8_t) (n j d : Nat)
    (h : isalpha (name.getD j 0) = false) :
    dir_decode_loop ext (n + 1) j 2 d name
      = ((name.set j (ext.getD 2 0)).set (j + 1) 0, d) := by
  rw [dir_decode_loop]
  simp only [h, Bool.false_eq_true, if_false]
  rw [if_pos (show (2 : Int) + 1 = 3 by decide), if_neg (show ¬ (2 : Int) = -1 by decide)]
  rfl

/-- The decode loop passes `k` letters and counts them. -/
theorem dir_decode_loop_letters (ext name : List uint8_t) (m k : Nat) :
    ∀ j d, (∀ x, x < k → isalpha (name.getD (j + x) 0) = true) → d + k < 256 →
      dir_decode_loop ext (k + m) j (-1) d name
        = dir_decode_loop ext m (j + k) (-1) (d + k) name := by
  induction k with
  | zero =>
    intro j d _ _
    simp
  | succ k ih =>
    intro j d hl hd
    have e : k + 1 + m = (k + m) + 1 := by omega
    rw [e, dir_decode_loop_alpha ext name (k + m) j d (hl 0 (by omega))]
    have hu : u8 (d + 1) = d + 1 := by
      unfold u8
      exact Nat.mod_eq_of_lt (by omega)
    rw [hu, ih (j + 1) (d + 1) (fun x hx => by
      have := hl (x + 1) (by omega)
      rwa [show j + (x + 1) = j + 1 + x by omega] at this) (by omega)]
    rw [show j + 1 + k = j + (k + 1) by omega, show d + 1 + k = d + (k + 1) by omega]

/-- The decode loop on a name of letters followed by at least four non-letters: the
letters stay, a dot, the three extension bytes and a NUL follow; `dot_bit` counts the
letters. -/
theorem dir_decode_loop_name (ext letters rest : List uint8_t) (t0 t1 t2 t3 t4 : uint8_t)
    (m : Nat) (hl : ∀ c ∈ letters, isalpha c = true) (hn : letters.length < 256)
    (h0 : isalpha t0 = false) (h1 : isalpha t1 = false) (h2 : isalpha t2 = false)
    (h3 : isalpha t3 = false) :
    dir_decode_loop ext (letters.length + (m + 4)) 0 (-1) 0
        (letters ++ t0 :: t1 :: t2 :: t3 :: t4 :: rest)
      = (letters ++ 46 :: ext.getD 0 0 :: ext.getD 1 0 :: ext.getD 2 0 :: 0 :: rest,
          letters.length) := by
  have hg : ∀ x, (letters ++ t0 :: t1 :: t2 :: t3 :: t4 :: rest).getD (letters.length + x) 0
      = (t0 :: t1 :: t2 :: t3 :: t4 :: rest).getD x 0 := by
    intro x
    simp [List.getD_eq_getElem?_getD, List.getElem?_append_right]
  rw [dir_decode_loop_letters ext _ (m + 4) letters.length 0 0 (by
    intro x hx
    rw [Nat.zero_add, List.getD_eq_getElem?_getD, List.getElem?_append_left hx]
    have hm : letters[x] ∈ letters := List.getElem_mem hx
    simp [List.getElem?_eq_getElem hx, hl _ hm]) (by omega)]
  simp only [Nat.zero_add]
  rw [show m + 4 = (m + 3) + 1 by omega, dir_decode_loop_dot ext _ _ _ _ (by
    have := hg 0
    rw [Nat.add_zero] at this
    rw [this]
    exact h0)]
  have hs : ∀ (x : Nat) (v : uint8_t) (l : List uint8_t),
      (letters ++ l).set (letters.length + x) v = letters ++ l.set x v := by
    intro x v l
    rw [List.set_append_right _ _ (by omega)]
    simp
  have := hs 0
  rw [Nat.add_zero] at this
  rw [this]
  simp only [List.set_cons_zero]
  have hg1 : ∀ (x : Nat) (l : List uint8_t), (letters ++ l).getD (letters.length + x) 0
      = l.getD x 0 := by
    intro x l
    simp [List.getD_eq_getElem?_getD, List.getElem?_append_right]
  have e0 := dir_decode_loop_ext ext (letters ++ 46 :: t1 :: t2 :: t3 :: t4 :: rest) (m + 2)
    (letters.length + 1) letters.length 0 (by omega) (by rw [hg1]; exact h1)
  rw [show m + 3 = (m + 2) + 1 by omega, show (0 : Int) = ((0 : Nat) : Int) from rfl, e0, hs]
  simp only [List.set_cons_succ, List.set_cons_zero]
  have e1 := dir_decode_loop_ext ext (letters ++ 46 :: ext.getD 0 0 :: t2 :: t3 :: t4 :: rest)
    (m + 1) (letters.length + 1 + 1) letters.length 1 (by omega) (by
      rw [show letters.length + 1 + 1 = letters.length + 2 by omega, hg1]; exact h2)
  rw [show m + 2 = (m + 1) + 1 by omega, e1,
    show letters.length + 1 + 1 = letters.length + 2 by omega, hs]
  simp only [List.set_cons_succ, List.set_cons_zero]
  have e2 := dir_decode_loop_last ext
    (letters ++ 46 :: ext.getD 0 0 :: ext.getD 1 0 :: t3 :: t4 :: rest)
    m (letters.length + 2 + 1) letters.length (by
      rw [show letters.length + 2 + 1 = letters.length + 3 by omega, hg1]; exact h3)
  rw [show ((1 + 1 : Nat) : Int) = 2 from rfl, e2,
    show letters.length + 2 + 1 = letters.length + 3 by omega, hs,
    show letters.length + 3 + 1 = letters.length + 4 by omega, hs]
  simp only [List.set_cons_succ, List.set_cons_zero]

/-- The bytes behind a name of at most 8 letters in the 14-byte buffer of `dir_read`:
padding spaces and zeros, at least five of them, none a letter. -/
theorem pad_tail_shape (k : Nat) (hk : k ≤ 7) :
    ∃ t0 t1 t2 t3 t4 rest,
      List.replicate k (32 : uint8_t) ++ List.replicate 6 0 = t0 :: t1 :: t2 :: t3 :: t4 :: rest ∧
        isalpha t0 = false ∧ isalpha t1 = false ∧ isalpha t2 = false ∧ isalpha t3 = false := by
  interval_cases k <;>
    exact ⟨_, _, _, _, _, _, rfl, by decide, by decide, by decide, by decide⟩

theorem list_of_length_three (l : List uint8_t) (h : l.length = 3) :
    l = [l.getD 0 0, l.getD 1 0, l.getD 2 0] := by
  match l, h with
  | [_, _, _], _ => rfl

theorem bytes_at_length (buffer : List uint8_t) (off n : Nat) :
    (bytes_at buffer off n).length = n := by
  simp [bytes_at]

/-- The bytes before the first NUL of a buffer that holds `s`, free of NUL, then a NUL. -/
theorem c_string_append_nul (s rest : List uint8_t) (hs : ∀ c ∈ s, c ≠ 0) :
    c_string (s ++ 0 :: rest) = s := by
  induction s with
  | nil => simp [c_string]
  | cons a l ih =>
    have ha : a ≠ 0 := hs a (List.mem_cons_self _ _)
    have hl := ih (fun c hc => hs c (List.mem_cons_of_mem _ hc))
    unfold c_string at hl ⊢
    simp only [List.cons_append, List.takeWhile, ha, ne_eq, not_false_eq_true, decide_True]
    exact congrArg (List.cons a) hl

/-- What the decode loop of `dir_read` leaves for a directory entry whose name is `n`
letters (`1 ≤ n ≤ 8`) and `8 - n` spaces. -/
theorem dir_decode_loop_entry (temp letters : List uint8_t)
    (hn1 : 1 ≤ letters.length) (hn8 : letters.length ≤ 8)
    (hl : ∀ c ∈ letters, isalpha c = true)
    (hname : bytes_at temp 0 8 = letters ++ List.replicate (8 - letters.length) 32) :
    ∃ rest, dir_decode_loop (bytes_at temp 8 3) 13 0 (-1) 0
        (bytes_at temp 0 8 ++ List.replicate 6 0)
      = (letters ++ 46 :: (bytes_at temp 8 3).getD 0 0 :: (bytes_at temp 8 3).getD 1 0
            :: (bytes_at temp 8 3).getD 2 0 :: 0 :: rest, letters.length) := by
  obtain ⟨t0, t1, t2, t3, t4, rest, ht, h0, h1, h2, h3⟩ :=
    pad_tail_shape (8 - letters.length) (by omega)
  refine ⟨rest, ?_⟩
  rw [hname, List.append_assoc, ht,
    show (13 : Nat) = letters.length + ((9 - letters.length) + 4) by omega]
  exact dir_decode_loop_name _ letters rest t0 t1 t2 t3 t4 _ hl (by omega) h0 h1 h2 h3

theorem isalpha_not_skipped (c : uint8_t) (h : isalpha c = true) :
    ¬ (c = 0x00 ∨ c = 0xE5 ∨ c = 0x2E) := by
  intro hc
  rcases hc with h0 | h0 | h0 <;> (rw [h0] at h; revert h; decide)

theorem strcpy_shape (dst src : List uint8_t) :
    strcpy dst src = c_string src ++ 0 :: dst.drop ((c_string src).length + 1) := by
  simp [strcpy, memcpy]

/-- The record name after `strcpy` of a buffer holding `s`, free of NUL, then a NUL:
the string `s`, of length `strlen`, with its NUL. -/
theorem strcpy_nul_terminated (dst s rest : List uint8_t) (hs : ∀ c ∈ s, c ≠ 0) :
    c_string (strcpy dst (s ++ 0 :: rest)) = s ∧
      strlen (strcpy dst (s ++ 0 :: rest)) = s.length ∧
      (strcpy dst (s ++ 0 :: rest)).getD s.length 1 = 0 := by
  have h1 : strcpy dst (s ++ 0 :: rest) = s ++ 0 :: dst.drop (s.length + 1) := by
    rw [strcpy_shape, c_string_append_nul s rest hs]
  have h2 : c_string (strcpy dst (s ++ 0 :: rest)) = s := by
    rw [h1, c_string_append_nul s _ hs]
  refine ⟨h2, ?_, ?_⟩
  · show (c_string (strcpy dst (s ++ 0 :: rest))).length = s.length
    rw [h2]
  · rw [h1, List.getD_eq_getElem?_getD, List.getElem?_append_right (Nat.le_refl _),
      Nat.sub_self]
    simp

/-- Names made of letters.  Let `dir_read` be called on a directory handle whose `volume`
member is assigned, on a volume whose root directory fits its buffer and is read into
`buffer`, and let slot `i` be the slot the call
stops at (every slot from `dir_offset` up to `i` is skipped).  If the 8-byte name of the
entry at slot `i` is `n` ASCII letters (`1 ≤ n ≤ 8`) followed by `8 - n` spaces, then
`dir_read` returns 0 and: (1) if the three extension bytes are letters, the name stored in
the caller's record is exactly the `n` letters, a dot and the three extension letters;
(2) if the extension is three spaces, it is exactly the `n` letters, with no dot.  In both
cases the string has at most 12 bytes and its NUL is stored behind it, so it is
NUL-terminated within 13 bytes. -/
theorem dir_read_letters_name (pdir : dir_t) (pentry : dir_entry_t) (volume : volume_t)
    (buffer : List uint8_t) (i : Nat) (letters : List uint8_t)
    (hvol : pdir.volume = some volume)
    (hbuf : disk_read volume.disk (fat_area_end volume.super) volume.root_dir_sectors
      = some buffer)
    (hroot : root_reads_in_bounds volume)
    (hi1 : pdir.dir_offset ≤ i) (hi2 : i < volume.super.maximum_number_of_files)
    (hskip : ∀ j, pdir.dir_offset ≤ j → j < i → slot_skipped buffer j)
    (hn1 : 1 ≤ letters.length) (hn8 : letters.length ≤ 8)
    (hl : ∀ c ∈ letters, isalpha c = true)
    (hname : bytes_at (bytes_at buffer (i * 32) 32) 0 8
      = letters ++ List.replicate (8 - letters.length) 32) :
    ∃ r, dir_read pdir pentry = .ok r ∧ r.ret = 0 ∧
      ((∀ c ∈ bytes_at (bytes_at buffer (i * 32) 32) 8 3, isalpha c = true) →
        c_string r.pentry.name = letters ++ [46] ++ bytes_at (bytes_at buffer (i * 32) 32) 8 3 ∧
          strlen r.pentry.name = letters.length + 4 ∧ strlen r.pentry.name ≤ 12 ∧
          r.pentry.name.getD (strlen r.pentry.name) 1 = 0) ∧
      (bytes_at (bytes_at buffer (i * 32) 32) 8 3 = [32, 32, 32] →
        c_string r.pentry.name = letters ∧
          strlen r.pentry.name = letters.length ∧ strlen r.pentry.name ≤ 12 ∧
          r.pentry.name.getD (strlen r.pentry.name) 1 = 0) := by
  have hns : ¬ slot_skipped buffer i := by
    have h0 : buffer.getD (i * 32) 0 = letters.getD 0 0 := by
      have h1 := bytes_at_getD (bytes_at buffer (i * 32) 32) 0 8 0 (by omega)
      rw [bytes_at_getD buffer (i * 32) 32 (0 + 0) (by omega), hname] at h1
      have h2 : buffer.getD (i * 32) 0
          = (letters ++ List.replicate (8 - letters.length) 32).getD 0 0 := h1.symm
      rw [h2, List.getD_eq_getElem?_getD, List.getD_eq_getElem?_getD,
        List.getElem?_append_left (by omega)]
    have hm : letters.getD 0 0 ∈ letters := by
      rw [List.getD_eq_getElem _ _ (by omega)]
      exact List.getElem_mem _
    unfold slot_skipped
    rw [h0]
    exact isalpha_not_skipped _ (hl _ hm)
  have hrd : dir_read pdir pentry
      = .ok (dir_read_loop buffer pdir pentry
          (volume.super.maximum_number_of_files - pdir.dir_offset) pdir.dir_offset) := by
    have hfit : ¬ volume.root_dir_capacity * volume.super.bytes_per_sector
        < (disk_bytes volume.disk (fat_area_end volume.super) volume.root_dir_sectors).length := by
      rw [disk_bytes_length]
      have := hroot.1
      omega
    unfold dir_read
    rw [hvol]
    simp only []
    rw [if_neg hfit, hbuf]
  obtain ⟨rest, hloop⟩ := dir_decode_loop_entry (bytes_at buffer (i * 32) 32) letters hn1 hn8
    hl hname
  have h3 := list_of_length_three (bytes_at (bytes_at buffer (i * 32) 32) 8 3)
    (bytes_at_length _ _ _)
  have h8 : (bytes_at buffer (i * 32) 32).getD 8 0
      = (bytes_at (bytes_at buffer (i * 32) 32) 8 3).getD 0 0 :=
    (bytes_at_getD (bytes_at buffer (i * 32) 32) 8 3 0 (by omega)).symm
  have hlz : ∀ c ∈ letters, c ≠ 0 := fun c hc => isalpha_ne_zero c (hl c hc)
  refine ⟨_, hrd, ?_⟩
  rw [dir_read_loop_yield buffer pdir pentry i hns _ pdir.dir_offset hi1 (by omega) hskip]
  refine ⟨rfl, ?_, ?_⟩
  · intro hext
    have he0 : isalpha ((bytes_at (bytes_at buffer (i * 32) 32) 8 3).getD 0 0) = true := by
      apply hext
      rw [List.getD_eq_getElem _ _ (by rw [bytes_at_length]; omega)]
      exact List.getElem_mem _
    have hne : ¬ (bytes_at buffer (i * 32) 32).getD 8 0 = 32 := by
      rw [h8]
      intro h32
      rw [h32, isalpha_space] at he0
      cases he0
    have hnm : dir_read_name (bytes_at buffer (i * 32) 32)
        = (letters ++ [46] ++ bytes_at (bytes_at buffer (i * 32) 32) 8 3) ++ 0 :: rest := by
      unfold dir_read_name
      simp only []
      rw [if_neg hne, hloop]
      nth_rewrite 4 [h3]
      simp
    have hsz : ∀ c ∈ letters ++ [46] ++ bytes_at (bytes_at buffer (i * 32) 32) 8 3, c ≠ 0 := by
      intro c hc
      rcases List.mem_append.1 hc with hc1 | hc1
      · rcases List.mem_append.1 hc1 with hc2 | hc2
        · exact hlz c hc2
        · rw [List.mem_singleton.1 hc2]
          decide
      · exact isalpha_ne_zero c (hext c hc1)
    show c_string (strcpy pentry.name _) = _ ∧ strlen (strcpy pentry.name _) = _ ∧
      strlen (strcpy pentry.name _) ≤ 12 ∧
      (strcpy pentry.name _).getD (strlen (strcpy pentry.name _)) 1 = 0
    rw [hnm]
    obtain ⟨q1, q2, q3⟩ := strcpy_nul_terminated pentry.name _ rest hsz
    have hlen : (letters ++ [46] ++ bytes_at (bytes_at buffer (i * 32) 32) 8 3).length
        = letters.length + 4 := by
      simp [bytes_at_length]
    rw [q2, hlen]
    rw [hlen] at q3
    exact ⟨q1, rfl, by omega, q3⟩
  · intro hext
    have he : (bytes_at buffer (i * 32) 32).getD 8 0 = 32 := by
      rw [h8, hext]
      rfl
    have hnm : dir_read_name (bytes_at buffer (i * 32) 32)
        = letters ++ 0 :: 32 :: 32 :: 32 :: 0 :: rest := by
      unfold dir_read_name
      simp only []
      rw [if_pos he, hloop, hext]
      simp only []
      rw [List.set_append_right _ _ (Nat.le_refl _), Nat.sub_self]
      rfl
    show c_string (strcpy pentry.name _) = _ ∧ strlen (strcpy pentry.name _) = _ ∧
      strlen (strcpy pentry.name _) ≤ 12 ∧
      (strcpy pentry.name _).getD (strlen (strcpy pentry.name _)) 1 = 0
    rw [hnm]
    obtain ⟨q1, q2, q3⟩ := strcpy_nul_terminated pentry.name letters _ hlz
    rw [q2]
    exact ⟨q1, rfl, by omega, q3⟩

/-- On `listing_disk`, `dir_read` on `listing_dir` at slot 0 (`HELLO   TXT`) stores the
name `HELLO.TXT`, and at slot 2 (`EMPTY`, extension of three spaces) the name `EMPTY`. -/
theorem dir_read_letters_name_witness :
    (∃ r, dir_read (listing_dir 0) blank_entry = .ok r ∧ r.ret = 0 ∧
        c_string r.pentry.name = bytes_of [72, 69, 76, 76, 79, 46, 84, 88, 84] ∧
        strlen r.pentry.name = 9 ∧ r.pentry.name.getD 9 1 = 0) ∧
      (∃ r, dir_read (listing_dir 2) blank_entry = .ok r ∧ r.ret = 0 ∧
        c_string r.pentry.name = bytes_of [69, 77, 80, 84, 89] ∧
        strlen r.pentry.name = 5 ∧ r.pentry.name.getD 5 1 = 0) := by
  have hext : bytes_at (bytes_at (disk_bytes listing_disk 2 1) (0 * 32) 32) 8 3
      = bytes_of [84, 88, 84] := by (set_option maxRecDepth 8000 in rfl)
  have hsp : bytes_at (bytes_at (disk_bytes listing_disk 2 1) (2 * 32) 32) 8 3
      = [32, 32, 32] := by (set_option maxRecDepth 8000 in rfl)
  constructor
  · obtain ⟨r, h1, h2, h3, _⟩ := dir_read_letters_name (listing_dir 0) blank_entry
      listing_volume (disk_bytes listing_disk 2 1) 0 (bytes_of [72, 69, 76, 76, 79]) rfl
      listing_root_read listing_root_reads_in_bounds (Nat.le_refl 0) (by decide!)
      (by intro j h1 h2; exact absurd h2 (Nat.not_lt.2 h1)) (by decide) (by decide)
      (by decide!) (by (set_option maxRecDepth 8000 in rfl))
    obtain ⟨q1, q2, _, q4⟩ := h3 (by rw [hext]; decide!)
    rw [q2] at q4
    rw [hext] at q1
    exact ⟨r, h1, h2, q1, q2, q4⟩
  · obtain ⟨r, h1, h2, _, h4⟩ := dir_read_letters_name (listing_dir 2) blank_entry
      listing_volume (disk_bytes listing_disk 2 1) 2 (bytes_of [69, 77, 80, 84, 89]) rfl
      listing_root_read listing_root_reads_in_bounds (Nat.le_refl 2) (by decide!)
      (by intro j h1 h2; exact absurd h2 (Nat.not_lt.2 h1)) (by decide) (by decide)
      (by decide!) (by (set_option maxRecDepth 8000 in rfl))
    obtain ⟨q1, q2, _, q4⟩ := h4 hsp
    rw [q2] at q4
    exact ⟨r, h1, h2, q1, q2, q4⟩

/-- C23 (evaluation at the failing input): slot 0 of the root directory of `listing_disk`
holds the entry `HELLO   TXT`: a name of 5 letters and 3 spaces, an extension of three
letters.  `dir_open` returns the handle `listing_dir_opened`, whose `volume` member is not
assigned, and `dir_read` on it traps at line 468 instead of yielding `HELLO.TXT`.  On the
same handle with `volume` assigned by hand, `dir_read` returns 0 with `HELLO.TXT` and its
NUL in the record. -/
theorem dir_read_letters_after_dir_open :
    dir_open listing_volume (bytes_of [92]) = .ok listing_dir_opened ∧
      bytes_at (disk_bytes listing_disk 2 1) (0 * 32) 11 = bytes_of name_HELLO_TXT ∧
      dir_read listing_dir_opened blank_entry = .fault ∧
      dir_read { listing_dir_opened with volume := some listing_volume } blank_entry
        = .ok { ret := 0, errno := none, pdir := listing_dir 1,
                pentry := { blank_entry with
                  name := bytes_of [72, 69, 76, 76, 79, 46, 84, 88, 84]
                    ++ List.replicate 11 0 } } := by
  refine ⟨?_, ?_, ?_, ?_⟩ <;>
    (set_option maxRecDepth 8000 in rfl)

end FAT16
